import Mathlib

/-!
Verification of the buzzit aggregation core (`backend/core/crawler/main.py`
and `backend/core/extractor.py`) against its natural-language specification.

Python strings are modelled as `List Char` (`PyStr`); Python `bytes` as
`List Nat`.  HTML documents are modelled post-parse, as the element tree that
`BeautifulSoup(html, "lxml")` hands to the adapter and sanitizer code: every
function below that walks markup is a translation of the corresponding Python
function over that tree.  Machine-level concerns (network transport, the
actual lxml string-to-tree parse, asyncio scheduling) are outside the
embedding; functions touching them take the already-fetched / already-parsed
value as an argument, mirroring the call boundary in the source.
-/

namespace Buzzit

/-- Python strings, modelled as lists of characters (one element per code
point, matching Python `len`/slicing semantics). -/
abbrev PyStr := List Char

/-- Coerce a Lean string literal to the `PyStr` model. -/
def pstr (s : String) : PyStr := s.data

/-- Python `needle.isPrefixOf`-style check: `pyStarts pre s` is
`s.startswith(pre)`. -/
def pyStarts : PyStr → PyStr → Bool
  | [], _ => true
  | _ :: _, [] => false
  | a :: as, b :: bs => a == b && pyStarts as bs

/-- Python `needle in hay` substring containment. -/
def pyContains (needle : PyStr) : PyStr → Bool
  | [] => pyStarts needle []
  | c :: rest => pyStarts needle (c :: rest) || pyContains needle rest

/-- Python `s.lower()` (ASCII case folding, which is what every call site
feeds it). -/
def pyLower (s : PyStr) : PyStr := s.map Char.toLower

/-- Python `s.lstrip()` (whitespace). -/
def pyLStrip (s : PyStr) : PyStr := s.dropWhile Char.isWhitespace

/-- Python `s.rstrip()` (whitespace). -/
def pyRStrip (s : PyStr) : PyStr := (s.reverse.dropWhile Char.isWhitespace).reverse

/-- Python `s.strip()` (whitespace). -/
def pyStrip (s : PyStr) : PyStr := pyRStrip (pyLStrip s)

/-- Python `s.endswith(suf)`. -/
def pyEnds (suf s : PyStr) : Bool := pyStarts suf.reverse s.reverse

/-- Python `s.replace(",", "")` — the only `str.replace` call in the crawler
removes every comma, so it is modelled as a filter. -/
def removeCommas (s : PyStr) : PyStr := s.filter (fun c => c ≠ ',')

/-- Numeric value of a digit string (the `int(...)` of a regex digit group). -/
def natOfDigits (s : PyStr) : Nat := s.foldl (fun a c => 10 * a + (c.toNat - 48)) 0

/-- `re.search(r"(\d+)", s)`: leftmost maximal run of decimal digits, if any. -/
def firstDigitRun (s : PyStr) : Option PyStr :=
  match s.dropWhile (fun c => !c.isDigit) with
  | [] => none
  | c :: rest => some ((c :: rest).takeWhile Char.isDigit)

/-- Translation of `_to_int_safe` (crawler/main.py lines 110-115): `None` or
empty text gives `None`; otherwise commas are removed, the text is stripped,
and the first integer run is parsed. -/
def toIntSafe : Option PyStr → Option Nat
  | none => none
  | some t =>
    if t = [] then none
    else
      match firstDigitRun (pyStrip (removeCommas t)) with
      | some run => some (natOfDigits run)
      | none => none

/-- Claim-side characterization for C6, written from the spec's words: the
value returned is the first maximal digit run of the input after removing
commas (and `none` when there is no digit). -/
def specFirstIntAfterCommaRemoval (s : PyStr) : Option Nat :=
  (firstDigitRun (removeCommas s)).map natOfDigits

lemma ws_not_digit {c : Char} (h : c.isWhitespace = true) : c.isDigit = false := by
  have h' : ((c = ' ' ∨ c = '\t') ∨ c = '\r') ∨ c = '\n' := by
    simpa [Char.isWhitespace] using h
  have h' : c = ' ' ∨ c = '\t' ∨ c = '\r' ∨ c = '\n' := by tauto
  rcases h' with h | h | h | h <;> subst h <;> decide

lemma dropWhile_dropWhile_of_imp (p q : Char → Bool) (h : ∀ c, p c = true → q c = true)
    (s : PyStr) : (s.dropWhile p).dropWhile q = s.dropWhile q := by
  induction s with
  | nil => rfl
  | cons c rest ih =>
    by_cases hp : p c = true
    · rw [List.dropWhile_cons_of_pos hp, ih, List.dropWhile_cons_of_pos (h c hp)]
    · rw [List.dropWhile_cons_of_neg (by simp [hp])]

lemma firstDigitRun_lstrip (s : PyStr) :
    firstDigitRun (pyLStrip s) = firstDigitRun s := by
  unfold firstDigitRun pyLStrip
  rw [dropWhile_dropWhile_of_imp Char.isWhitespace (fun c => !c.isDigit)
    (fun c hc => by simp [ws_not_digit hc]) s]

lemma takeWhile_append_nodigit (x w : PyStr) (hw : ∀ c ∈ w, c.isDigit = false) :
    (x ++ w).takeWhile Char.isDigit = x.takeWhile Char.isDigit := by
  induction x with
  | nil =>
    cases w with
    | nil => rfl
    | cons c cs => simp [List.takeWhile_cons, hw c (by simp)]
  | cons c cs ih =>
    by_cases h : c.isDigit = true <;> simp [List.takeWhile_cons, h, ih]

lemma firstDigitRun_append_nodigit (s w : PyStr) (hw : ∀ c ∈ w, c.isDigit = false) :
    firstDigitRun (s ++ w) = firstDigitRun s := by
  induction s with
  | nil =>
    have hdrop : w.dropWhile (fun c => !c.isDigit) = [] := by
      apply List.dropWhile_eq_nil_iff.mpr
      intro c hc
      simp [hw c hc]
    simp [firstDigitRun, hdrop]
  | cons c rest ih =>
    by_cases h : c.isDigit = true
    · simp only [firstDigitRun, List.cons_append]
      rw [List.dropWhile_cons_of_neg (by simp [h]),
        List.dropWhile_cons_of_neg (by simp [h])]
      dsimp only
      have := takeWhile_append_nodigit (c :: rest) w hw
      simp only [List.cons_append] at this
      rw [this]
    · simp only [firstDigitRun, List.cons_append] at ih ⊢
      rw [List.dropWhile_cons_of_pos (by simp [h]),
        List.dropWhile_cons_of_pos (by simp [h])]
      exact ih

lemma firstDigitRun_rstrip (s : PyStr) :
    firstDigitRun (pyRStrip s) = firstDigitRun s := by
  have h := List.takeWhile_append_dropWhile
    (p := fun c => Char.isWhitespace c) (l := s.reverse)
  have hs : s = (s.reverse.dropWhile (fun c => Char.isWhitespace c)).reverse
      ++ (s.reverse.takeWhile (fun c => Char.isWhitespace c)).reverse := by
    conv_lhs => rw [← List.reverse_reverse s, ← h]
    rw [List.reverse_append]
  rw [pyRStrip]
  conv_rhs => rw [hs]
  rw [firstDigitRun_append_nodigit]
  intro c hc
  exact ws_not_digit (by simpa using List.mem_takeWhile_imp (List.mem_reverse.mp hc))

lemma firstDigitRun_strip (s : PyStr) :
    firstDigitRun (pyStrip s) = firstDigitRun s := by
  rw [pyStrip, firstDigitRun_rstrip, firstDigitRun_lstrip]

/-- Claim C6: numeric metadata parsing. `"1,234회"` parses to `1234`, `"[12]"`
to `12`, empty or absent text to `none` (not zero); and on every input the
result agrees with the first maximal digit run of the comma-stripped text. -/
theorem toIntSafe_spec :
    toIntSafe (some (pstr "1,234회")) = some 1234 ∧
    toIntSafe (some (pstr "[12]")) = some 12 ∧
    toIntSafe (some (pstr "")) = none ∧
    toIntSafe none = none ∧
    ∀ s : PyStr, toIntSafe (some s) = specFirstIntAfterCommaRemoval s := by
  refine ⟨by decide, by decide, rfl, rfl, ?_⟩
  intro s
  by_cases hs : s = []
  · subst hs; rfl
  · simp only [toIntSafe, specFirstIntAfterCommaRemoval, if_neg hs, firstDigitRun_strip]
    cases firstDigitRun (removeCommas s) <;> simp

/-! ## URL parsing model (`urllib.parse`)

The crawler resolves URLs with `urlparse` / `urljoin`.  The model below keeps
the parts the proofs depend on faithful: the cleanup `urlsplit` applies to its
input, scheme recognition, the authority (netloc) component, and the
`uses_relative` dispatch of `urljoin`.  Path resolution joins the relative
reference against the base's directory without dot-segment normalization. -/

/-- Python `bytes`, one list element per byte. -/
abbrev Bytes := List Nat

/-- Cleanup performed by `urllib.parse.urlsplit` before parsing: tab, CR and
LF are removed anywhere; leading and trailing C0-control-or-space characters
are stripped. -/
def pyUrlClean (s : PyStr) : PyStr :=
  (((s.filter (fun c => c ≠ '\t' ∧ c ≠ '\n' ∧ c ≠ '\r')).dropWhile
      (fun c => c.toNat ≤ 32)).reverse.dropWhile (fun c => c.toNat ≤ 32)).reverse

/-- Characters allowed in a URL scheme after the leading letter. -/
def isSchemeChar (c : Char) : Bool :=
  c.isAlpha || c.isDigit || c = '+' || c = '-' || c = '.'

/-- Scheme recognition of `urlsplit` on an already-cleaned URL: a leading
ASCII letter followed by scheme characters up to a `:`.  Returns the
lowercased scheme and the part after the colon. -/
def splitSchemeClean (u : PyStr) : Option (PyStr × PyStr) :=
  let sch := u.takeWhile (fun c => c ≠ ':')
  if decide (sch.length < u.length) && (sch.headD '0').isAlpha &&
      sch.all isSchemeChar then
    some (pyLower sch, u.drop (sch.length + 1))
  else none

/-- Scheme split of a raw URL string, cleanup included. -/
def pySplitScheme (u : PyStr) : Option (PyStr × PyStr) :=
  splitSchemeClean (pyUrlClean u)

/-- `urlparse(url).netloc`: the authority component, present only after
`//`. -/
def pyNetloc (url : PyStr) : PyStr :=
  let u := pyUrlClean url
  let rest := match splitSchemeClean u with
    | some (_, r) => r
    | none => u
  if pyStarts (pstr "//") rest then
    (rest.drop 2).takeWhile (fun c => c ≠ '/' ∧ c ≠ '?' ∧ c ≠ '#')
  else []

/-! ## Byte-to-text decoding (`_decode_html`, claim C7) -/

/-- Abstract codec environment.  `strictOther` stands for
`content.decode(enc, errors="strict")` for every encoding except `latin-1`;
it is an arbitrary partial function, covering undecodable bytes and unknown
encoding names alike (both raise, and the source catches every exception).
`latin-1` strict decoding is concrete — it maps each byte to the code point
of the same value and never fails, the fact the fallback chain relies on.
The `errors="replace"` / `errors="ignore"` modes never fail and are modelled
as total functions. -/
structure Codecs where
  strictOther : PyStr → Bytes → Option PyStr
  utf8Replace : Bytes → PyStr
  cp949Ignore : Bytes → PyStr
  utf8Ignore : Bytes → PyStr

/-- Strict `latin-1` decoding: every byte is a code point. -/
def latin1Decode (content : Bytes) : PyStr :=
  content.map (fun b => Char.ofNat (b % 256))

/-- `content.decode(enc, errors="strict")` in the abstract codec
environment. -/
def decodeStrict (cs : Codecs) (enc : PyStr) (content : Bytes) : Option PyStr :=
  if pyLower enc = pstr "latin-1" then some (latin1Decode content)
  else cs.strictOther enc content

/-- The `for enc in (...)` loop of `_decode_html`'s humoruniv branch
(crawler/main.py lines 126-132): empty names are skipped, failures fall
through to the next candidate. -/
def decodeTryEach (cs : Codecs) (content : Bytes) : List PyStr → Option PyStr
  | [] => none
  | enc :: rest =>
    if enc = [] then decodeTryEach cs content rest
    else
      match decodeStrict cs enc content with
      | some s => some s
      | none => decodeTryEach cs content rest

/-- The generic fallback loop of `_decode_html` (lines 137-145): candidates
are tried strictly in order, skipping empty names and exact repeats. -/
def decodeLoop (cs : Codecs) (content : Bytes) :
    List PyStr → List PyStr → Option PyStr
  | _, [] => none
  | tried, enc :: rest =>
    if enc = [] ∨ enc ∈ tried then decodeLoop cs content tried rest
    else
      match decodeStrict cs enc content with
      | some s => some s
      | none => decodeLoop cs content (tried ++ [enc]) rest

/-- Translation of `_decode_html` (crawler/main.py lines 117-146): per-host
hints first (utf-8-with-replacement for mlbpark, a cp949-first chain with a
lossy cp949 fallback for humoruniv), otherwise declared charset → utf-8 →
cp949 → euc-kr → latin-1, with a final lossy utf-8 fallback. -/
def decodeHtml (cs : Codecs) (url : PyStr) (content : Bytes)
    (declared : Option PyStr) : Option PyStr :=
  let host := pyNetloc url
  if pyContains (pstr "humoruniv.com") host ||
      pyContains (pstr "mlbpark.donga.com") host then
    if pyContains (pstr "mlbpark.donga.com") host then
      some (cs.utf8Replace content)
    else
      match decodeTryEach cs content
        [pstr "cp949", pstr "euc-kr", pstr "utf-8", declared.getD []] with
      | some s => some s
      | none => some (cs.cp949Ignore content)
  else
    match decodeLoop cs content []
      [declared.getD [], pstr "utf-8", pstr "cp949", pstr "euc-kr",
        pstr "latin-1"] with
    | some s => some s
    | none => some (cs.utf8Ignore content)

lemma decodeLoop_latin1 (cs : Codecs) (content : Bytes)
    (hstrict : cs.strictOther = fun _ _ => none) :
    ∀ encs tried, (∃ e ∈ encs, pyLower e = pstr "latin-1" ∧ e ∉ tried) →
      decodeLoop cs content tried encs = some (latin1Decode content) := by
  intro encs
  induction encs with
  | nil => intro tried h; rcases h with ⟨e, he, _⟩; cases he
  | cons enc rest ih =>
    intro tried h
    rcases h with ⟨e, he, hlat, hnot⟩
    by_cases hskip : enc = [] ∨ enc ∈ tried
    · rw [decodeLoop, if_pos hskip]
      apply ih
      rcases List.mem_cons.mp he with rfl | hmem
      · rcases hskip with rfl | hmem'
        · exact absurd hlat (by decide)
        · exact absurd hmem' hnot
      · exact ⟨e, hmem, hlat, hnot⟩
    · rw [decodeLoop, if_neg hskip]
      by_cases hl : pyLower enc = pstr "latin-1"
      · rw [decodeStrict, if_pos hl]
      · rw [decodeStrict, if_neg hl, hstrict]
        apply ih
        have hne : e ≠ enc := fun hEq => hl (hEq ▸ hlat)
        rcases List.mem_cons.mp he with rfl | hmem
        · exact absurd rfl hne
        · exact ⟨e, hmem, hlat, by
            intro hmem'
            rcases List.mem_append.mp hmem' with h' | h'
            · exact hnot h'
            · exact hne (List.mem_singleton.mp h')⟩

/-- Claim C7: `_decode_html` is total — for every URL, byte content, declared
encoding (including none or an unknown name) and every behavior of the
abstract strict decoders it returns a string; and on the generic path, even
when every abstract strict decoder fails, the chain lands on the always-
succeeding latin-1 decode. -/
theorem decodeHtml_total :
    (∀ (cs : Codecs) (url : PyStr) (content : Bytes) (declared : Option PyStr),
      (decodeHtml cs url content declared).isSome = true) ∧
    (∀ (cs : Codecs) (content : Bytes) (declared : Option PyStr),
      cs.strictOther = (fun _ _ => none) →
      decodeHtml cs (pstr "https://www.clien.net/service/board/park") content
        declared = some (latin1Decode content)) := by
  constructor
  · intro cs url content declared
    rw [decodeHtml]
    by_cases h1 : (pyContains (pstr "humoruniv.com") (pyNetloc url) ||
        pyContains (pstr "mlbpark.donga.com") (pyNetloc url)) = true
    · rw [if_pos h1]
      by_cases h2 : pyContains (pstr "mlbpark.donga.com") (pyNetloc url) = true
      · rw [if_pos h2]; rfl
      · rw [if_neg h2]
        cases decodeTryEach cs content
          [pstr "cp949", pstr "euc-kr", pstr "utf-8", declared.getD []] <;> rfl
    · rw [if_neg h1]
      cases decodeLoop cs content []
        [declared.getD [], pstr "utf-8", pstr "cp949", pstr "euc-kr",
          pstr "latin-1"] <;> rfl
  · intro cs content declared hstrict
    rw [decodeHtml]
    rw [if_neg (by decide)]
    rw [decodeLoop_latin1 cs content hstrict _ []
      ⟨pstr "latin-1", by simp, by decide, by simp⟩]

/-- Witness for C7's hypotheses at a concrete codec environment and input:
all strict decoders failing, content `[0xC0]` (invalid UTF-8), no declared
encoding. -/
theorem decodeHtml_total_witness :
    decodeHtml ⟨fun _ _ => none, fun _ => [], fun _ => [], fun _ => []⟩
      (pstr "https://www.clien.net/service/board/park") [0xC0] none =
      some (latin1Decode [0xC0]) := by
  exact decodeHtml_total.2 _ [0xC0] none rfl

/-! ## `urljoin` and `_abs` -/

/-- Schemes for which `urljoin` performs relative resolution
(`urllib.parse.uses_relative`). -/
def usesRelative : List PyStr :=
  [pstr "", pstr "ftp", pstr "http", pstr "gopher", pstr "nntp", pstr "imap",
   pstr "wais", pstr "file", pstr "https", pstr "shttp", pstr "mms",
   pstr "prospero", pstr "rtsp", pstr "rtspu", pstr "sftp", pstr "svn",
   pstr "svn+ssh", pstr "ws", pstr "wss"]

/-- Split a scheme-less URL remainder into authority and path (the path part
keeps any query/fragment, a simplification that only coarsens the directory
computation below). -/
def splitNetlocPath (r : PyStr) : PyStr × PyStr :=
  if pyStarts (pstr "//") r then
    let rest := r.drop 2
    (rest.takeWhile (fun c => c ≠ '/' ∧ c ≠ '?' ∧ c ≠ '#'),
     rest.dropWhile (fun c => c ≠ '/' ∧ c ≠ '?' ∧ c ≠ '#'))
  else ([], r)

/-- Directory of a path: everything up to and including the last `/`. -/
def dirName (p : PyStr) : PyStr := (p.reverse.dropWhile (fun c => c ≠ '/')).reverse

/-- Resolution of a relative reference `rest` against a base with scheme `sl`,
authority `bnetloc` and path `bpath` (the non-shortcut arm of `urljoin`). -/
def joinParsed (sl bnetloc bpath rest : PyStr) : PyStr :=
  if pyStarts (pstr "//") rest then sl ++ pstr ":" ++ rest
  else if pyStarts (pstr "/") rest then sl ++ pstr "://" ++ bnetloc ++ rest
  else if rest = [] then sl ++ pstr "://" ++ bnetloc ++ bpath
  else
    sl ++ pstr "://" ++ bnetloc ++
      (if pyStarts (pstr "/") (dirName bpath ++ rest) then dirName bpath ++ rest
       else pstr "/" ++ (dirName bpath ++ rest))

/-- The (lowercased) scheme of the base URL, empty when it has none. -/
def baseSchemeOf (base : PyStr) : PyStr :=
  match splitSchemeClean (pyUrlClean base) with
  | some sr => sr.1
  | none => []

/-- The part of the base URL after its scheme. -/
def baseRestOf (base : PyStr) : PyStr :=
  match splitSchemeClean (pyUrlClean base) with
  | some sr => sr.2
  | none => pyUrlClean base

/-- `urljoin`'s non-shortcut dispatch: a URL carrying a scheme that differs
from the base's — or a non-relative scheme such as `javascript:` or
`mailto:` — is returned unchanged; otherwise it is resolved against the
base. -/
def urljoinCore (bsch bnetloc bpath url : PyStr) : PyStr :=
  match pySplitScheme url with
  | some sr =>
    if sr.1 = bsch ∧ sr.1 ∈ usesRelative then joinParsed sr.1 bnetloc bpath sr.2
    else url
  | none =>
    if bsch ∈ usesRelative then joinParsed bsch bnetloc bpath (pyUrlClean url)
    else url

/-- Model of `urllib.parse.urljoin`, keeping faithful the parts the proofs
rely on: the empty-argument shortcuts, scheme recognition with `urlsplit`'s
whitespace cleanup, and the `uses_relative` dispatch.  Directory-relative
resolution omits dot-segment normalization. -/
def urljoin (base url : PyStr) : PyStr :=
  if base = [] then url
  else if url = [] then base
  else urljoinCore (baseSchemeOf base) (splitNetlocPath (baseRestOf base)).1
    (splitNetlocPath (baseRestOf base)).2 url

/-- Translation of `_abs` (crawler/main.py lines 164-171): already-absolute
URLs pass through, a humoruniv `read.html` special case rebases, everything
else is joined against the supplied base. -/
def absUrl (url base : PyStr) : PyStr :=
  if pyStarts (pstr "http") url then url
  else if pyContains (pstr "humoruniv.com") base &&
      pyStarts (pstr "read.html") url then
    urljoin (pstr "https://web.humoruniv.com/board/humor/") url
  else urljoin base url

/-! ## Records and deduplication (claims C3, C5) -/

/-- Translation of the `Post` dataclass (crawler/main.py lines 34-45). -/
structure Post where
  site : PyStr
  title : PyStr
  url : PyStr
  author : Option PyStr := none
  timestamp : Option PyStr := none
  views : Option Nat := none
  likes : Option Nat := none
  comments : Option Nat := none
  collected_at : Option PyStr := none
  thumbnail : Option PyStr := none
deriving DecidableEq

/-- A record with only the fields every adapter sets positionally. -/
def postOf (site title url : PyStr) : Post :=
  { site := site, title := title, url := url }

/-- `re.search(marker + r"(\d+)", s)`: the digit group at the leftmost
position where `marker` is immediately followed by at least one digit. -/
def searchMarkedNum (marker : PyStr) : PyStr → Option PyStr
  | [] => none
  | c :: rest =>
    if pyStarts marker (c :: rest) &&
        (match (c :: rest).drop marker.length with
         | d :: _ => d.isDigit
         | [] => false) then
      some (((c :: rest).drop marker.length).takeWhile Char.isDigit)
    else searchMarkedNum marker rest

/-- The duplicate key computed for each post inside `dedupe_posts`
(crawler/main.py lines 1076-1105), factored out verbatim from the loop
body: the URL itself unless one of seven fixed URL patterns yields a numeric
post id, in which case the key is that pattern's hard-coded site prefix plus
the id. -/
def urlKey (p : Post) : PyStr :=
  if pyContains (pstr "number=") p.url then
    match searchMarkedNum (pstr "number=") p.url with
    | some n => pstr "humoruniv_" ++ n
    | none => p.url
  else if pyContains (pstr "document_srl=") p.url then
    match searchMarkedNum (pstr "document_srl=") p.url with
    | some n => pstr "fmkorea_" ++ n
    | none => p.url
  else if pyContains (pstr "read/") p.url then
    match searchMarkedNum (pstr "read/") p.url with
    | some n => pstr "ruliweb_" ++ n
    | none => p.url
  else if pyContains (pstr "wr_id=") p.url then
    match searchMarkedNum (pstr "wr_id=") p.url with
    | some n => pstr "etoland_" ++ n
    | none => p.url
  else if pyContains (pstr "board/webzine/2097/") p.url then
    match searchMarkedNum (pstr "2097/") p.url with
    | some n => pstr "inven_" ++ n
    | none => p.url
  else if pyContains (pstr "No=") p.url then
    match searchMarkedNum (pstr "No=") p.url with
    | some n => pstr "bobaedream_" ++ n
    | none => p.url
  else if pyContains (pstr "view.php") p.url && pyContains (pstr "no=") p.url then
    match searchMarkedNum (pstr "no=") p.url with
    | some n => pstr "ppomppu_" ++ n
    | none => p.url
  else p.url

/-- The loop of `dedupe_posts` (crawler/main.py lines 1072-1111); `seen` is
the set of keys already emitted. -/
def dedupeAux (seen : List PyStr) : List Post → List Post
  | [] => []
  | p :: ps =>
    if urlKey p ∈ seen then dedupeAux seen ps
    else p :: dedupeAux (urlKey p :: seen) ps

/-- Translation of `dedupe_posts`. -/
def dedupePosts (posts : List Post) : List Post := dedupeAux [] posts

lemma dedupeAux_sublist (seen : List PyStr) (l : List Post) :
    List.Sublist (dedupeAux seen l) l := by
  induction l generalizing seen with
  | nil => simp [dedupeAux]
  | cons p ps ih =>
    rw [dedupeAux]
    by_cases h : urlKey p ∈ seen
    · rw [if_pos h]; exact (ih seen).cons _
    · rw [if_neg h]; exact (ih _).cons₂ _

lemma key_not_seen_of_mem_dedupeAux {seen : List PyStr} {l : List Post}
    {p : Post} (h : p ∈ dedupeAux seen l) : urlKey p ∉ seen := by
  induction l generalizing seen with
  | nil => simp [dedupeAux] at h
  | cons q qs ih =>
    rw [dedupeAux] at h
    by_cases hq : urlKey q ∈ seen
    · rw [if_pos hq] at h; exact ih h
    · rw [if_neg hq] at h
      rcases List.mem_cons.mp h with rfl | h'
      · exact hq
      · exact fun hc => (ih h') (List.mem_cons_of_mem _ hc)

lemma dedupeAux_keys_nodup (seen : List PyStr) (l : List Post) :
    ((dedupeAux seen l).map urlKey).Nodup := by
  induction l generalizing seen with
  | nil => simp [dedupeAux]
  | cons p ps ih =>
    rw [dedupeAux]
    by_cases h : urlKey p ∈ seen
    · rw [if_pos h]; exact ih seen
    · rw [if_neg h]
      simp only [List.map_cons, List.nodup_cons]
      refine ⟨?_, ih _⟩
      intro hc
      rcases List.mem_map.mp hc with ⟨q, hq, hkey⟩
      exact key_not_seen_of_mem_dedupeAux hq
        (by rw [hkey]; exact List.mem_cons_self _ _)

lemma dedupeAux_id_of_nodup (seen : List PyStr) (l : List Post)
    (hn : (l.map urlKey).Nodup) (hdis : ∀ p ∈ l, urlKey p ∉ seen) :
    dedupeAux seen l = l := by
  induction l generalizing seen with
  | nil => rfl
  | cons p ps ih =>
    rw [dedupeAux, if_neg (hdis p (List.mem_cons_self _ _))]
    congr 1
    apply ih
    · exact (List.nodup_cons.mp (by simpa using hn)).2
    · intro q hq hc
      rcases List.mem_cons.mp hc with hEq | hmem
      · exact (List.nodup_cons.mp (by simpa using hn)).1
          (List.mem_map.mpr ⟨q, hq, hEq⟩)
      · exact hdis q (List.mem_cons_of_mem _ hq) hmem

lemma dedupeAux_first_seen {seen : List PyStr} {l : List Post} {p : Post}
    (h : p ∈ dedupeAux seen l) :
    ∃ l₁ l₂, l = l₁ ++ p :: l₂ ∧
      ∀ q ∈ l₁, urlKey q ∈ seen ∨ urlKey q ≠ urlKey p := by
  induction l generalizing seen with
  | nil => simp [dedupeAux] at h
  | cons x xs ih =>
    rw [dedupeAux] at h
    by_cases hx : urlKey x ∈ seen
    · rw [if_pos hx] at h
      rcases ih h with ⟨l₁, l₂, rfl, hall⟩
      refine ⟨x :: l₁, l₂, rfl, ?_⟩
      intro q hq
      rcases List.mem_cons.mp hq with rfl | hq'
      · exact Or.inl hx
      · exact hall q hq'
    · rw [if_neg hx] at h
      rcases List.mem_cons.mp h with rfl | h'
      · exact ⟨[], xs, rfl, by simp⟩
      · rcases ih h' with ⟨l₁, l₂, rfl, hall⟩
        have hkp : urlKey p ∉ urlKey x :: seen := key_not_seen_of_mem_dedupeAux h'
        refine ⟨x :: l₁, l₂, rfl, ?_⟩
        intro q hq
        rcases List.mem_cons.mp hq with rfl | hq'
        · exact Or.inr fun hc => hkp (by rw [← hc]; exact List.mem_cons_self _ _)
        · rcases hall q hq' with hin | hne
          · rcases List.mem_cons.mp hin with hEq | hs
            · refine Or.inr fun hc => ?_
              rw [hc] at hEq
              exact hkp (by rw [← hEq]; exact List.mem_cons_self _ _)
            · exact Or.inl hs
          · exact Or.inr hne

/-- Claim C3: deduplication is idempotent; the output is a subsequence of the
input (so relative order is preserved); and each kept post is the first
occurrence of its dedupe key — every input element strictly before it has a
different key. -/
theorem dedupePosts_spec :
    (∀ X : List Post, dedupePosts (dedupePosts X) = dedupePosts X) ∧
    (∀ X : List Post, List.Sublist (dedupePosts X) X) ∧
    (∀ (X : List Post) (p : Post), p ∈ dedupePosts X →
      ∃ l₁ l₂, X = l₁ ++ p :: l₂ ∧ ∀ q ∈ l₁, urlKey q ≠ urlKey p) := by
  refine ⟨?_, ?_, ?_⟩
  · intro X
    exact dedupeAux_id_of_nodup [] _ (dedupeAux_keys_nodup [] X) (by simp)
  · intro X
    exact dedupeAux_sublist [] X
  · intro X p hp
    rcases dedupeAux_first_seen hp with ⟨l₁, l₂, rfl, hall⟩
    refine ⟨l₁, l₂, rfl, ?_⟩
    intro q hq
    rcases hall q hq with hin | hne
    · simp at hin
    · exact hne

/-- Witness for C3's first-seen clause at a concrete input: two posts with
the same URL collapse to the first. -/
theorem dedupePosts_spec_witness :
    ∃ l₁ l₂,
      [postOf (pstr "clien") (pstr "first copy") (pstr "https://www.clien.net/a"),
       postOf (pstr "clien") (pstr "second copy") (pstr "https://www.clien.net/a")] =
        l₁ ++ postOf (pstr "clien") (pstr "first copy")
          (pstr "https://www.clien.net/a") :: l₂ ∧
      ∀ q ∈ l₁, urlKey q ≠ urlKey (postOf (pstr "clien") (pstr "first copy")
        (pstr "https://www.clien.net/a")) := by
  exact dedupePosts_spec.2.2 _ _ (by decide)

lemma pyStarts_iff {pre s : PyStr} : pyStarts pre s = true ↔ ∃ t, s = pre ++ t := by
  induction pre generalizing s with
  | nil => simp [pyStarts]
  | cons c cs ih =>
    cases s with
    | nil => simp [pyStarts]
    | cons d ds =>
      rw [pyStarts]
      constructor
      · intro h
        rcases Bool.and_eq_true_iff.mp h with ⟨h1, h2⟩
        rcases ih.mp h2 with ⟨t, rfl⟩
        exact ⟨t, by rw [beq_iff_eq.mp h1]; rfl⟩
      · rintro ⟨t, ht⟩
        injection ht with h1 h2
        subst h1
        exact Bool.and_eq_true_iff.mpr ⟨beq_self_eq_true _, ih.mpr ⟨t, h2⟩⟩

lemma pyContains_of_starts {x s : PyStr} (h : pyStarts x s = true) :
    pyContains x s = true := by
  cases s with
  | nil => simpa [pyContains] using h
  | cons c rest => rw [pyContains]; exact Bool.or_eq_true_iff.mpr (Or.inl h)

lemma pyContains_cons {x : PyStr} {c : Char} {rest : PyStr}
    (h : pyContains x rest = true) : pyContains x (c :: rest) = true := by
  rw [pyContains]; exact Bool.or_eq_true_iff.mpr (Or.inr h)

lemma searchMarkedNum_spec {marker s n : PyStr}
    (h : searchMarkedNum marker s = some n) :
    n ≠ [] ∧ n.all Char.isDigit = true ∧ pyContains (marker ++ n) s = true := by
  induction s with
  | nil => simp [searchMarkedNum] at h
  | cons c rest ih =>
    rw [searchMarkedNum] at h
    by_cases hcond : (pyStarts marker (c :: rest) &&
        (match (c :: rest).drop marker.length with
         | d :: _ => d.isDigit
         | [] => false)) = true
    · rw [if_pos hcond] at h
      injection h with h
      subst h
      rcases Bool.and_eq_true_iff.mp hcond with ⟨hpre, hdig⟩
      rcases pyStarts_iff.mp hpre with ⟨t, hs⟩
      have hdrop : (c :: rest).drop marker.length = t := by
        rw [hs, List.drop_append_of_le_length le_rfl, List.drop_length,
          List.nil_append]
      rw [hdrop] at hdig ⊢
      refine ⟨?_, ?_, ?_⟩
      · cases t with
        | nil => simp at hdig
        | cons d ds =>
          rw [List.takeWhile_cons, if_pos (by simpa using hdig)]
          simp
      · exact List.all_eq_true.mpr fun c hc => List.mem_takeWhile_imp hc
      · apply pyContains_of_starts
        apply pyStarts_iff.mpr
        refine ⟨t.dropWhile Char.isDigit, ?_⟩
        rw [hs, List.append_assoc, List.takeWhile_append_dropWhile]
    · rw [if_neg hcond] at h
      exact ⟨(ih h).1, (ih h).2.1, pyContains_cons (ih h).2.2⟩

/-- The seven URL patterns of `dedupe_posts` and the hard-coded site prefix
each one maps to. -/
def keyPatterns : List (PyStr × PyStr) :=
  [(pstr "humoruniv_", pstr "number="),
   (pstr "fmkorea_", pstr "document_srl="),
   (pstr "ruliweb_", pstr "read/"),
   (pstr "etoland_", pstr "wr_id="),
   (pstr "inven_", pstr "2097/"),
   (pstr "bobaedream_", pstr "No="),
   (pstr "ppomppu_", pstr "no=")]

/-- Claim C5 (amended): the dedupe key of a record is either its URL itself,
or `prefix ++ digits` where the prefix is the hard-coded site name attached
to the first matching URL pattern — determined by the URL alone, not by the
record's own `site` field — and `marker ++ digits` occurs in the URL. -/
theorem urlKey_characterization (p : Post) :
    urlKey p = p.url ∨
    ∃ pre marker num, (pre, marker) ∈ keyPatterns ∧
      urlKey p = pre ++ num ∧ num ≠ [] ∧ num.all Char.isDigit = true ∧
      pyContains (marker ++ num) p.url = true := by
  rw [urlKey]
  repeat' split
  all_goals
    first
    | exact Or.inl rfl
    | · rename_i n hn
        rcases searchMarkedNum_spec hn with ⟨h1, h2, h3⟩
        exact Or.inr ⟨_, _, n, by simp [keyPatterns], rfl, h1, h2, h3⟩

/-- Counterexample to claim C5 as stated: a ddanzi record whose URL carries a
`document_srl` id gets the key `fmkorea_123` — the prefix is not the record's
own source, and the key is not the URL either; a genuine fmkorea record with
the same id is then swallowed by the ddanzi record during deduplication. -/
theorem urlKey_not_own_source :
    urlKey (postOf (pstr "ddanzi") (pstr "funny post!")
        (pstr "https://www.ddanzi.com/index.php?mid=free&document_srl=123")) =
      pstr "fmkorea_123" ∧
    (postOf (pstr "ddanzi") (pstr "funny post!")
        (pstr "https://www.ddanzi.com/index.php?mid=free&document_srl=123")).site =
      pstr "ddanzi" ∧
    urlKey (postOf (pstr "ddanzi") (pstr "funny post!")
        (pstr "https://www.ddanzi.com/index.php?mid=free&document_srl=123")) ≠
      pstr "ddanzi_123" ∧
    urlKey (postOf (pstr "ddanzi") (pstr "funny post!")
        (pstr "https://www.ddanzi.com/index.php?mid=free&document_srl=123")) ≠
      pstr "https://www.ddanzi.com/index.php?mid=free&document_srl=123" ∧
    dedupePosts
      [postOf (pstr "ddanzi") (pstr "funny post!")
        (pstr "https://www.ddanzi.com/index.php?mid=free&document_srl=123"),
       postOf (pstr "fmkorea") (pstr "other post!")
        (pstr "https://www.fmkorea.com/index.php?mid=humor&document_srl=123")] =
      [postOf (pstr "ddanzi") (pstr "funny post!")
        (pstr "https://www.ddanzi.com/index.php?mid=free&document_srl=123")] := by
  refine ⟨by decide, by decide, by decide, by decide, by decide⟩

/-! ## Aggregation orchestrator (claims C4, C10) -/

/-- `Post.to_dict` (crawler/main.py lines 47-59): a field-for-field
serialization whose only computation is defaulting `collected_at` to the
collection time; modelled as the record it describes. -/
def toDict (now : PyStr) (p : Post) : Post :=
  { p with collected_at := some (p.collected_at.getD now) }

/-- Outcome of the site-specific work inside `_crawl_site`'s `try` block: the
crawl or parse raised an exception, the generic fetch returned nothing, or a
parser produced a list of posts.  Network and asyncio behavior live behind
this abstraction; the branches are exactly the exits of lines 1350-1372. -/
inductive CrawlStep where
  | raised : PyStr → CrawlStep
  | fetchFailed : CrawlStep
  | parsed : List Post → CrawlStep
deriving DecidableEq

/-- Translation of `_crawl_site` (crawler/main.py lines 1343-1376): a raised
exception or a failed fetch contributes an empty list; otherwise the parsed
list is truncated to its first 30 entries and serialized. -/
def crawlSite (now : PyStr) (step : CrawlStep) : List Post :=
  match step with
  | .raised _ => []
  | .fetchFailed => []
  | .parsed posts => (posts.take 30).map (toDict now)

/-- The `asyncio.gather(..., return_exceptions=True)` result of `crawl_all`:
each task's outcome, wrapped.  `crawlSite` is total, so every slot is `ok`;
the `error` constructor mirrors the wrapper the source still guards for. -/
def gatherResults (now : PyStr) (steps : List CrawlStep) :
    List (Except PyStr (List Post)) :=
  steps.map (fun s => Except.ok (crawlSite now s))

/-- Translation of `crawl_all` (crawler/main.py lines 1379-1393): keep list
results, skip exception results, concatenate in site order. -/
def crawlAll (now : PyStr) (steps : List CrawlStep) : List Post :=
  (gatherResults now steps).foldl
    (fun acc r => match r with | .ok l => acc ++ l | .error _ => acc) []

lemma crawlAll_foldl (now : PyStr) (steps : List CrawlStep)
    (acc : List Post) :
    (steps.map (fun s => (Except.ok (crawlSite now s) : Except PyStr (List Post)))).foldl
      (fun acc r => match r with | .ok l => acc ++ l | .error _ => acc) acc =
      acc ++ (steps.map (crawlSite now)).flatten := by
  induction steps generalizing acc with
  | nil => simp
  | cons s rest ih => simp [ih, List.append_assoc]

/-- Claim C4: per-source failure isolation.  A source whose crawl raised, or
whose fetch produced nothing, contributes exactly the empty list; `crawl_all`
is the concatenation of every source's own contribution, so the other
sources' records are all returned and no per-source failure escapes. -/
theorem crawlAll_isolation :
    (∀ (now e : PyStr), crawlSite now (.raised e) = []) ∧
    (∀ now : PyStr, crawlSite now .fetchFailed = []) ∧
    (∀ (now : PyStr) (steps : List CrawlStep),
      crawlAll now steps = (steps.map (crawlSite now)).flatten) := by
  refine ⟨fun _ _ => rfl, fun _ => rfl, ?_⟩
  intro now steps
  rw [crawlAll, gatherResults, crawlAll_foldl]
  rfl

/-- Claim C10: each source contributes at most 30 records — the successful
branch of `_crawl_site` is exactly the first 30 parsed records in order, and
every contribution has length at most 30. -/
theorem crawlSite_truncates :
    (∀ (now : PyStr) (posts : List Post),
      crawlSite now (.parsed posts) = (posts.take 30).map (toDict now)) ∧
    (∀ (now : PyStr) (step : CrawlStep), (crawlSite now step).length ≤ 30) := by
  refine ⟨fun _ _ => rfl, ?_⟩
  intro now step
  cases step with
  | raised e => simp [crawlSite]
  | fetchFailed => simp [crawlSite]
  | parsed posts =>
    simp only [crawlSite, List.length_map, List.length_take]
    exact min_le_left _ _

/-! ## Content extraction result bounds (claim C9) -/

/-- Translation of the `ExtractedContent` dataclass (extractor.py lines
25-30). -/
structure ExtractedContent where
  html_content : PyStr
  text_content : PyStr
  images : List PyStr
  source_url : PyStr
deriving DecidableEq

/-- `MAX_CONTENT_SIZE = 500_000` (extractor.py line 84). -/
def MAX_CONTENT_SIZE : Nat := 500000

/-- `MAX_IMAGES = 50` (extractor.py line 85). -/
def MAX_IMAGES : Nat := 50

/-- The result construction of `extract_content` (extractor.py lines 142-147
and 163-168): Python slicing `[:MAX_CONTENT_SIZE]` / `[:MAX_IMAGES]` applied
to the sanitized HTML string, the extracted plain text, and the image-URL
list.  The three inputs are arguments here: they are produced by the fetch /
selector / sanitizer pipeline ahead of this construction. -/
def mkExtractedContent (sanitized text : PyStr) (images : List PyStr)
    (url : PyStr) : ExtractedContent :=
  { html_content := sanitized.take MAX_CONTENT_SIZE,
    text_content := text.take MAX_CONTENT_SIZE,
    images := images.take MAX_IMAGES,
    source_url := url }

/-- UTF-8 encoded size of a string, in bytes. -/
def utf8Len (s : PyStr) : Nat := (s.map Char.utf8Size).sum

/-- Claim C9 (amended): every `ExtractedContent` has `html_content` and
`text_content` truncated to at most `MAX_CONTENT_SIZE` *characters* — Python
slices strings by code point, not by byte — the truncations keep the leading
segment, and the image list is capped at `MAX_IMAGES` entries. -/
theorem extractedContent_bounds (sanitized text : PyStr)
    (images : List PyStr) (url : PyStr) :
    (mkExtractedContent sanitized text images url).html_content.length ≤
      MAX_CONTENT_SIZE ∧
    (mkExtractedContent sanitized text images url).text_content.length ≤
      MAX_CONTENT_SIZE ∧
    (mkExtractedContent sanitized text images url).images.length ≤ MAX_IMAGES ∧
    (mkExtractedContent sanitized text images url).html_content =
      sanitized.take MAX_CONTENT_SIZE ∧
    (mkExtractedContent sanitized text images url).images =
      images.take MAX_IMAGES := by
  refine ⟨?_, ?_, ?_, rfl, rfl⟩ <;>
    simp only [mkExtractedContent, List.length_take] <;>
    exact min_le_left _ _

/-- Counterexample to claim C9 as stated: the bound is not a byte bound.  A
sanitized body of 600 000 Korean syllables is truncated to 500 000
characters, whose UTF-8 size is 1 500 000 bytes — three times
`MAX_CONTENT_SIZE`. -/
theorem extractedContent_byte_blowup :
    MAX_CONTENT_SIZE <
      utf8Len ((mkExtractedContent (List.replicate 600000 '한') [] [] []).html_content) ∧
    utf8Len ((mkExtractedContent (List.replicate 600000 '한') [] [] []).html_content) =
      1500000 := by
  have h1 : (mkExtractedContent (List.replicate 600000 '한') [] [] []).html_content =
      List.replicate 500000 '한' := by
    have hmin : min MAX_CONTENT_SIZE 600000 = 500000 := by
      norm_num [MAX_CONTENT_SIZE]
    show (List.replicate 600000 '한').take MAX_CONTENT_SIZE = _
    rw [List.take_replicate, hmin]
  have h3 : ('한').utf8Size = 3 := by decide
  have h2 : utf8Len (List.replicate 500000 '한') = 1500000 := by
    rw [utf8Len, List.map_replicate, h3, List.sum_replicate, smul_eq_mul]
  rw [h1, h2]
  exact ⟨by norm_num [MAX_CONTENT_SIZE], rfl⟩

/-! ## HTML tree model

Markup is modelled after parsing: `HNode` is a text node or an element with a
tag name, an attribute list and children.  `HForest` is a node list as a
mutual inductive so that every traversal below is structural (and therefore
kernel-reducible on concrete documents).  Adapters receive the parsed tree —
`BeautifulSoup(html, "lxml")` itself is the unmodelled HTML parser. -/

mutual
inductive HNode where
  | text : PyStr → HNode
  | elem : PyStr → List (PyStr × PyStr) → HForest → HNode
deriving DecidableEq
inductive HForest where
  | nil : HForest
  | cons : HNode → HForest → HForest
deriving DecidableEq
end

/-- `tag.get(name)` — first attribute with the given name. -/
def getAttr : HNode → PyStr → Option PyStr
  | .text _, _ => none
  | .elem _ attrs _, name => (attrs.find? (fun kv => kv.1 == name)).map (fun kv => kv.2)

/-- `tag.get(name, "")`. -/
def getAttrD (n : HNode) (name : PyStr) : PyStr := (getAttr n name).getD []

/-- `tag.has_attr(name)`. -/
def hasAttr (n : HNode) (name : PyStr) : Bool := (getAttr n name).isSome

/-- `tag.name` (empty for text nodes, which never reach the call sites). -/
def tagName : HNode → PyStr
  | .text _ => []
  | .elem t _ _ => t

/-- Split on whitespace runs, used for the multi-valued `class` attribute. -/
def splitOnWs (s : PyStr) : List PyStr :=
  (s.foldr (fun c acc =>
    if c.isWhitespace then [] :: acc
    else
      match acc with
      | a :: as => (c :: a) :: as
      | [] => [[c]]) [[]]).filter (fun a => a ≠ [])

/-- `tag.get("class", [])` — BeautifulSoup splits `class` into a list. -/
def nodeClasses (n : HNode) : List PyStr := splitOnWs (getAttrD n (pstr "class"))

/-- Whether an element carries a CSS class. -/
def hasClass (n : HNode) (c : PyStr) : Bool := (nodeClasses n).contains c

mutual
/-- All text-node strings of a node, in document order. -/
def nodeTexts : HNode → List PyStr
  | .text s => [s]
  | .elem _ _ cs => forestTexts cs
def forestTexts : HForest → List PyStr
  | .nil => []
  | .cons n rest => nodeTexts n ++ forestTexts rest
end

/-- `tag.get_text(strip=True)`: each string stripped, empties skipped, joined
without a separator. -/
def getTextStrip (n : HNode) : PyStr := ((nodeTexts n).map pyStrip).flatten

/-- `tag.get_text()`: raw concatenation. -/
def getTextRaw (n : HNode) : PyStr := (nodeTexts n).flatten

/-- A simple CSS selector: optional tag name, required classes, optional id,
attribute-equality tests, and attribute-substring tests (`[attr*="v"]`). -/
structure Simple where
  tag : Option PyStr := none
  classes : List PyStr := []
  id : Option PyStr := none
  attrEq : List (PyStr × PyStr) := []
  attrSub : List (PyStr × PyStr) := []
deriving DecidableEq

/-- Whether one element satisfies a simple selector. -/
def matchesSimple (sel : Simple) (n : HNode) : Bool :=
  match n with
  | .text _ => false
  | .elem t _ _ =>
    (match sel.tag with | some tg => t == tg | none => true) &&
    sel.classes.all (fun c => hasClass n c) &&
    (match sel.id with
     | some i => hasAttr n (pstr "id") && getAttrD n (pstr "id") == i
     | none => true) &&
    sel.attrEq.all (fun kv =>
      match getAttr n kv.1 with
      | some v => v == kv.2
      | none => false) &&
    sel.attrSub.all (fun kv =>
      match getAttr n kv.1 with
      | some v => pyContains kv.2 v
      | none => false)

/-- Whether a reversed descendant-selector tail embeds into the ancestor
chain (innermost ancestor first). -/
def embedsUp : List Simple → List HNode → Bool
  | [], _ => true
  | _ :: _, [] => false
  | s :: ss, a :: as => (matchesSimple s a && embedsUp ss as) || embedsUp (s :: ss) as

/-- Whether a node with the given ancestors matches a descendant-combinator
selector chain (outermost simple selector first). -/
def chainMatches (chain : List Simple) (ancs : List HNode) (n : HNode) : Bool :=
  match chain.reverse with
  | [] => false
  | s :: ss => matchesSimple s n && embedsUp ss ancs

mutual
/-- `element.select(chain)` worker: matching descendants in document order,
each paired with its ancestor chain (innermost first). -/
def selectNode (chain : List Simple) (ancs : List HNode) :
    HNode → List (HNode × List HNode)
  | .text _ => []
  | n@(.elem _ _ cs) =>
    (if chainMatches chain ancs n then [(n, ancs)] else []) ++
      selectForest chain (n :: ancs) cs
def selectForest (chain : List Simple) (ancs : List HNode) :
    HForest → List (HNode × List HNode)
  | .nil => []
  | .cons x rest => selectNode chain ancs x ++ selectForest chain ancs rest
end

/-- `soup.select(chain)` on the whole document. -/
def select (soup : HForest) (chain : List Simple) : List (HNode × List HNode) :=
  selectForest chain [] soup

/-- `soup.select_one(chain)`. -/
def selectOne (soup : HForest) (chain : List Simple) :
    Option (HNode × List HNode) :=
  (select soup chain).head?

/-- `element.select(chain)` for an element found earlier (its ancestors
carried along so combinators and `find_parent` keep working). -/
def selInto (na : HNode × List HNode) (chain : List Simple) :
    List (HNode × List HNode) :=
  match na.1 with
  | .text _ => []
  | .elem _ _ cs => selectForest chain (na.1 :: na.2) cs

/-- `element.select_one(chain)`. -/
def selOneIn (na : HNode × List HNode) (chain : List Simple) :
    Option (HNode × List HNode) :=
  (selInto na chain).head?

mutual
/-- Descendant elements with a given tag name, in document order. -/
def findTagNode (t : PyStr) : HNode → List HNode
  | .text _ => []
  | .elem name attrs cs =>
    (if name == t then [HNode.elem name attrs cs] else []) ++ findTagForest t cs
def findTagForest (t : PyStr) : HForest → List HNode
  | .nil => []
  | .cons x rest => findTagNode t x ++ findTagForest t rest
end

/-- `element.find_all(t, limit=k)` — descendants only, first `k` matches. -/
def findAllTag (n : HNode) (t : PyStr) (limit : Nat) : List HNode :=
  (match n with
   | .text _ => []
   | .elem _ _ cs => findTagForest t cs).take limit

/-- `element.find_parent(t)` over the carried ancestor chain; the result
keeps its own ancestors so further selection works on it. -/
def findParentTag (ancs : List HNode) (t : PyStr) : Option (HNode × List HNode) :=
  match ancs with
  | [] => none
  | a :: rest => if tagName a == t then some (a, rest) else findParentTag rest t

/-- `element.find_parent(t, class_=c)`. -/
def findParentTagClass (ancs : List HNode) (t c : PyStr) :
    Option (HNode × List HNode) :=
  match ancs with
  | [] => none
  | a :: rest =>
    if tagName a == t && hasClass a c then some (a, rest)
    else findParentTagClass rest t c

/-- Shorthand for selector literals. -/
def selC (tag : String) (classes : List String) : Simple :=
  { tag := if tag = "" then none else some (pstr tag),
    classes := classes.map pstr }

/-- Selector with an attribute-substring test, like `a[href*="x"]`. -/
def selSub (tag : String) (classes : List String) (attr v : String) : Simple :=
  { tag := if tag = "" then none else some (pstr tag),
    classes := classes.map pstr,
    attrSub := [(pstr attr, pstr v)] }

/-- Selector with an attribute-equality test, like `img[alt='공지']`. -/
def selEq (tag : String) (classes : List String) (attr v : String) : Simple :=
  { tag := if tag = "" then none else some (pstr tag),
    classes := classes.map pstr,
    attrEq := [(pstr attr, pstr v)] }

/-- Selector by id, like `#cnts` or `div#userct`. -/
def selId (tag : String) (i : String) : Simple :=
  { tag := if tag = "" then none else some (pstr tag), id := some (pstr i) }

/-! ## Thumbnail resolvers (claim C8) -/

/-- First `some` of a function over a list — the shape of every
first-match-wins loop in the thumbnail code. -/
def firstSome {α β : Type} (f : α → Option β) : List α → Option β
  | [] => none
  | x :: rest =>
    match f x with
    | some y => some y
    | none => firstSome f rest

/-- `_LAZY_ATTRS` (crawler/main.py line 63). -/
def LAZY_ATTRS : List PyStr :=
  [pstr "data-src", pstr "data-original", pstr "data-lazy-src", pstr "data-lazy"]

/-- `_THUMB_EXCLUDE_PATTERNS` (crawler/main.py lines 66-75). -/
def THUMB_EXCLUDE_PATTERNS : List PyStr :=
  [pstr "profile", pstr "avatar", pstr "icon", pstr "logo", pstr "emoticon",
   pstr "emot", pstr "placeholder", pstr "blank", pstr "spacer", pstr "noimg",
   pstr "no_img", pstr "/img/new_icon", pstr "/img/renewal", pstr "/img/rank/",
   pstr "/renew/images/", pstr "/newimg/", pstr "/board/level/", pstr "/level/",
   pstr "num01", pstr "num02", pstr "num03", pstr "num04", pstr "num05",
   pstr "num06", pstr "num07", pstr "num08", pstr "num09", pstr "num10",
   pstr ".svg"]

/-- Candidate `src` for one listing-row `img` (lines 82-90): the first
lazy-load attribute whose value starts with `http` or `/`, else the `src`
attribute. -/
def imgCandidateSrc (img : HNode) : PyStr :=
  match firstSome (fun attr =>
      match getAttr img attr with
      | some v =>
        if !v.isEmpty && (pyStarts (pstr "http") v || pyStarts (pstr "/") v) then
          some v
        else none
      | none => none) LAZY_ATTRS with
  | some v => v
  | none => getAttrD img (pstr "src")

/-- One iteration of `_extract_thumbnail`'s image loop (lines 81-107);
`none` is the loop's `continue`. -/
def thumbFromImg (img : HNode) (baseUrl : PyStr) : Option PyStr :=
  let src := imgCandidateSrc img
  if src.isEmpty || pyStarts (pstr "data:") src then none
  else if THUMB_EXCLUDE_PATTERNS.any (fun p => pyContains p (pyLower src)) then none
  else
    let width := getAttrD img (pstr "width")
    let height := getAttrD img (pstr "height")
    if !width.isEmpty && width.all Char.isDigit && natOfDigits width < 30 then none
    else if !height.isEmpty && height.all Char.isDigit && natOfDigits height < 30 then
      none
    else if pyStarts (pstr "http") src then some src
    else some (urljoin baseUrl src)

/-- Translation of `_extract_thumbnail` (crawler/main.py lines 77-108). -/
def extractThumbnail (element : Option HNode) (baseUrl : PyStr) : Option PyStr :=
  match element with
  | none => none
  | some el => firstSome (fun img => thumbFromImg img baseUrl) (findAllTag el (pstr "img") 5)

/-- `_CONTENT_SELECTORS` (crawler/main.py lines 1116-1133). -/
def CONTENT_SELECTORS : List (PyStr × List (List Simple)) :=
  [(pstr "humoruniv", [[selId "" "cnts"], [selId "" "wrap_img"]]),
   (pstr "ruliweb", [[selC "div" ["view_content"]], [selC "div" ["board_main_view"]]]),
   (pstr "etoland", [[selId "div" "view_content"], [selC "td" ["mw_basic_view_content"]]]),
   (pstr "inven", [[selId "div" "powerbbsContent"], [selC "div" ["contentBody"]]]),
   (pstr "clien", [[selC "div" ["post_article"]], [selC "div" ["post_view"]]]),
   (pstr "mlbpark", [[selId "div" "contentDetail"], [selC "div" ["ar_txt"]]]),
   (pstr "ddanzi", [[selC "div" ["xe_content"]], [selC "div" ["read_content"]]]),
   (pstr "bobaedream", [[selC "div" ["bodyCont"]], [selC "div" ["content02"]]]),
   (pstr "ppomppu", [[selC "td" ["board-contents"]]]),
   (pstr "fmkorea", [[selC "div" ["xe_content"]], [selC "article" []]]),
   (pstr "dcinside", [[selC "div" ["write_div"]], [selC "div" ["writing_view_box"]]]),
   (pstr "damoang", [[selC "div" ["fr-view"]], [selC "div" ["view_content"]]]),
   (pstr "dogdrip", [[selC "div" ["xe_content"]]]),
   (pstr "theqoo", [[selC "div" ["xe_content"]]]),
   (pstr "82cook", [[selC "div" ["view_content"]], [selC "div" ["post_content"]]]),
   (pstr "slrclub", [[selId "div" "userct"]])]

/-- `_OG_DEFAULT_PATTERNS` (crawler/main.py lines 1136-1140). -/
def OG_DEFAULT_PATTERNS : List PyStr :=
  [pstr "headtitle", pstr "default", pstr "og_default", pstr "og-default",
   pstr "common/", pstr "share_img", pstr "share_icon", pstr "logo",
   pstr "favicon", pstr "no_image", pstr "noimage", pstr "no-image"]

/-- Translation of `_is_valid_og_image` (lines 1142-1152). -/
def isValidOgImage (url : PyStr) : Bool :=
  if url.isEmpty then false
  else if OG_DEFAULT_PATTERNS.any (fun p => pyContains p (pyLower url)) then false
  else if pyContains (pstr "resize.php") (pyLower url) &&
      pyEnds (pstr "src=") (pyRStrip (pyLower url)) then false
  else true

/-- The detail-page image exclusion list (lines 1192-1199). -/
def DETAIL_IMG_EXCLUDE : List PyStr :=
  [pstr "loading", pstr "placeholder", pstr "blank", pstr "spacer", pstr "pixel",
   pstr "noimg", pstr "no_img", pstr "no_image", pstr "no-image",
   pstr "icon", pstr "logo", pstr "emoticon", pstr "emot",
   pstr "/newimg/", pstr "/renew/images/", pstr "/btn_", pstr "btn_",
   pstr "/board/level/", pstr "/level/", pstr "/img/rank/",
   pstr "gallery_no", pstr "thumb_no"]

/-- Resolution lines shared by the detail-page branches (`//` →
`https:` + url; not `http` → join against the page URL). -/
def resolveMediaUrl (baseUrl src : PyStr) : PyStr :=
  if pyStarts (pstr "//") src then pstr "https:" ++ src
  else if pyStarts (pstr "http") src then src
  else urljoin baseUrl src

/-- Candidate `src` for a detail-page `img` (lines 1177-1185): lazy-load
attribute accepted when it starts with `http`, `/`, or `//`. -/
def detailImgCandidate (img : HNode) : PyStr :=
  match firstSome (fun attr =>
      match getAttr img attr with
      | some v =>
        if !v.isEmpty && (pyStarts (pstr "http") v || pyStarts (pstr "/") v ||
            pyStarts (pstr "//") v) then
          some v
        else none
      | none => none) LAZY_ATTRS with
  | some v => v
  | none => getAttrD img (pstr "src")

/-- One iteration of the detail-page image loop (lines 1176-1216). -/
def mediaFromImg (img : HNode) (baseUrl : PyStr) : Option PyStr :=
  let src := detailImgCandidate img
  if src.isEmpty || pyStarts (pstr "data:") src then none
  else if DETAIL_IMG_EXCLUDE.any (fun p => pyContains p (pyLower src)) then none
  else
    let width := getAttrD img (pstr "width")
    let height := getAttrD img (pstr "height")
    if !width.isEmpty && width.all Char.isDigit && natOfDigits width < 50 then none
    else if !height.isEmpty && height.all Char.isDigit && natOfDigits height < 50 then
      none
    else some (resolveMediaUrl baseUrl src)

/-- One iteration of the video-poster loop (lines 1219-1226): any non-empty
poster is returned after resolution — no exclusion checks. -/
def mediaFromVideo (video : HNode) (baseUrl : PyStr) : Option PyStr :=
  let poster := getAttrD video (pstr "poster")
  if poster.isEmpty then none
  else some (resolveMediaUrl baseUrl poster)

/-- YouTube id characters, `[a-zA-Z0-9_-]`. -/
def isYtIdChar (c : Char) : Bool := c.isAlpha || c.isDigit || c = '_' || c = '-'

/-- `re.search(marker + r"([a-zA-Z0-9_-]+)", s)`: the id group at the
leftmost position where `marker` is followed by at least one id character. -/
def searchMarkedId (marker : PyStr) : PyStr → Option PyStr
  | [] => none
  | c :: rest =>
    if pyStarts marker (c :: rest) &&
        (match (c :: rest).drop marker.length with
         | d :: _ => isYtIdChar d
         | [] => false) then
      some (((c :: rest).drop marker.length).takeWhile isYtIdChar)
    else searchMarkedId marker rest

/-- One iteration of the embedded-video loop (lines 1229-1237). -/
def mediaFromIframe (iframe : HNode) : Option PyStr :=
  let src := getAttrD iframe (pstr "src")
  match searchMarkedId (pstr "youtube.com/embed/") src with
  | some i => some (pstr "https://img.youtube.com/vi/" ++ i ++ pstr "/hqdefault.jpg")
  | none =>
    match searchMarkedId (pstr "youtu.be/") src with
    | some i => some (pstr "https://img.youtube.com/vi/" ++ i ++ pstr "/hqdefault.jpg")
    | none => none

/-- The `og:image` lookup (lines 1167-1173 and 1240-1244). -/
def ogImage (soup : HForest) : Option PyStr :=
  match selectOne soup [selEq "meta" [] "property" "og:image"] with
  | some na =>
    if !(getAttrD na.1 (pstr "content")).isEmpty &&
        pyStarts (pstr "http") (getAttrD na.1 (pstr "content")) &&
        isValidOgImage (getAttrD na.1 (pstr "content")) then
      some (getAttrD na.1 (pstr "content"))
    else none
  | none => none

/-- Translation of `_extract_first_media_from_content` (crawler/main.py
lines 1154-1246). -/
def extractFirstMediaFromContent (soup : HForest) (site : PyStr)
    (baseUrl : PyStr) : Option PyStr :=
  let contentEl : Option (HNode × List HNode) :=
    match CONTENT_SELECTORS.find? (fun kv => kv.1 == site) with
    | some kv => firstSome (fun chain => selectOne soup chain) kv.2
    | none => none
  match contentEl with
  | none => ogImage soup
  | some el =>
    match firstSome (fun img => mediaFromImg img baseUrl)
        (findAllTag el.1 (pstr "img") 10) with
    | some u => some u
    | none =>
      match firstSome (fun v => mediaFromVideo v baseUrl)
          (findAllTag el.1 (pstr "video") 5) with
      | some u => some u
      | none =>
        match firstSome mediaFromIframe (findAllTag el.1 (pstr "iframe") 5) with
        | some u => some u
        | none => ogImage soup

lemma firstSome_mem {α β : Type} {f : α → Option β} {l : List α} {y : β}
    (h : firstSome f l = some y) : ∃ x ∈ l, f x = some y := by
  induction l with
  | nil => simp [firstSome] at h
  | cons x rest ih =>
    rw [firstSome] at h
    cases hx : f x with
    | some z =>
      rw [hx] at h
      injection h with h
      exact ⟨x, List.mem_cons_self _ _, by rw [hx, h]⟩
    | none =>
      rw [hx] at h
      rcases ih h with ⟨x', hx', hfx'⟩
      exact ⟨x', List.mem_cons_of_mem _ hx', hfx'⟩

lemma thumbFromImg_some {img : HNode} {base u : PyStr}
    (h : thumbFromImg img base = some u) :
    ∃ src : PyStr, src.isEmpty = false ∧ pyStarts (pstr "data:") src = false ∧
      (∀ p ∈ THUMB_EXCLUDE_PATTERNS, pyContains p (pyLower src) = false) ∧
      u = if pyStarts (pstr "http") src then src else urljoin base src := by
  simp only [thumbFromImg] at h
  split at h
  · exact absurd h (by simp)
  · rename_i h1
    split at h
    · exact absurd h (by simp)
    · rename_i h2
      split at h
      · exact absurd h (by simp)
      · split at h
        · exact absurd h (by simp)
        · have h1' : (List.isEmpty (imgCandidateSrc img) ||
              pyStarts (pstr "data:") (imgCandidateSrc img)) = false := by
            simpa using h1
          rcases Bool.or_eq_false_iff.mp h1' with ⟨he, hd⟩
          refine ⟨imgCandidateSrc img, he, hd, ?_, ?_⟩
          · intro p hp
            cases hcc : pyContains p (pyLower (imgCandidateSrc img))
            · rfl
            · exact absurd (List.any_eq_true.mpr ⟨p, hp, hcc⟩) h2
          · split at h
            · rename_i h5
              rw [if_pos h5]
              exact (Option.some_inj.mp h).symm
            · rename_i h5
              rw [if_neg h5]
              exact (Option.some_inj.mp h).symm

lemma mediaFromImg_some {img : HNode} {base u : PyStr}
    (h : mediaFromImg img base = some u) :
    ∃ src : PyStr, src.isEmpty = false ∧ pyStarts (pstr "data:") src = false ∧
      (∀ p ∈ DETAIL_IMG_EXCLUDE, pyContains p (pyLower src) = false) ∧
      u = resolveMediaUrl base src := by
  simp only [mediaFromImg] at h
  split at h
  · exact absurd h (by simp)
  · rename_i h1
    split at h
    · exact absurd h (by simp)
    · rename_i h2
      split at h
      · exact absurd h (by simp)
      · split at h
        · exact absurd h (by simp)
        · have h1' : (List.isEmpty (detailImgCandidate img) ||
              pyStarts (pstr "data:") (detailImgCandidate img)) = false := by
            simpa using h1
          rcases Bool.or_eq_false_iff.mp h1' with ⟨he, hd⟩
          refine ⟨detailImgCandidate img, he, hd, ?_, ?_⟩
          · intro p hp
            cases hcc : pyContains p (pyLower (detailImgCandidate img))
            · rfl
            · exact absurd (List.any_eq_true.mpr ⟨p, hp, hcc⟩) h2
          · exact (Option.some_inj.mp h).symm

/-- Claim C8 (amended): every URL the listing-row resolver returns comes from
an accepted image candidate that — before base resolution — contains no
noise pattern (case-insensitively) and does not start with `data:`, returned
as-is when absolute and otherwise joined against the base URL.  The
detail-page resolver guarantees the same (over its broader pattern list) on
its image branch only; its other branches return a resolved video poster, a
YouTube-embed thumbnail, or an `og:image` URL vetted only against the
og-default list — the noise-exclusion list is not applied there. -/
theorem thumbnailResolvers_spec :
    (∀ (element : Option HNode) (base u : PyStr),
      extractThumbnail element base = some u →
      ∃ src : PyStr, src.isEmpty = false ∧ pyStarts (pstr "data:") src = false ∧
        (∀ p ∈ THUMB_EXCLUDE_PATTERNS, pyContains p (pyLower src) = false) ∧
        u = if pyStarts (pstr "http") src then src else urljoin base src) ∧
    (∀ (soup : HForest) (site base u : PyStr),
      extractFirstMediaFromContent soup site base = some u →
      (∃ src : PyStr, src.isEmpty = false ∧ pyStarts (pstr "data:") src = false ∧
        (∀ p ∈ DETAIL_IMG_EXCLUDE, pyContains p (pyLower src) = false) ∧
        u = resolveMediaUrl base src) ∨
      (∃ poster : PyStr, poster.isEmpty = false ∧ u = resolveMediaUrl base poster) ∨
      (∃ i : PyStr,
        u = pstr "https://img.youtube.com/vi/" ++ i ++ pstr "/hqdefault.jpg") ∨
      (isValidOgImage u = true ∧ pyStarts (pstr "http") u = true)) := by
  constructor
  · intro element base u h
    match element with
    | none => simp [extractThumbnail] at h
    | some el =>
      rw [extractThumbnail] at h
      rcases firstSome_mem h with ⟨img, _, himg⟩
      exact thumbFromImg_some himg
  · intro soup site base u h
    have hog : ∀ v : PyStr, ogImage soup = some v →
        isValidOgImage v = true ∧ pyStarts (pstr "http") v = true := by
      intro v hv
      rw [ogImage] at hv
      split at hv
      · split at hv
        · rename_i hcond
          injection hv with hv
          subst hv
          rcases Bool.and_eq_true_iff.mp hcond with ⟨hcond', hvalid⟩
          exact ⟨hvalid, (Bool.and_eq_true_iff.mp hcond').2⟩
        · exact absurd hv (by simp)
      · exact absurd hv (by simp)
    rw [extractFirstMediaFromContent] at h
    split at h
    · exact Or.inr (Or.inr (Or.inr (hog u h)))
    · split at h
      · rename_i himg
        injection h with h
        subst h
        rcases firstSome_mem himg with ⟨img, _, hi⟩
        exact Or.inl (mediaFromImg_some hi)
      · split at h
        · rename_i hvid
          injection h with h
          subst h
          rcases firstSome_mem hvid with ⟨v, _, hv⟩
          rw [mediaFromVideo] at hv
          split at hv
          · exact absurd hv (by simp)
          · rename_i hne
            injection hv with hv
            refine Or.inr (Or.inl ⟨getAttrD v (pstr "poster"), ?_, hv.symm⟩)
            cases hp : (getAttrD v (pstr "poster")).isEmpty
            · rfl
            · exact absurd hp hne
        · split at h
          · rename_i hifr
            injection h with h
            subst h
            rcases firstSome_mem hifr with ⟨ifr, _, hi⟩
            rw [mediaFromIframe] at hi
            split at hi
            · rename_i i hid
              injection hi with hi
              exact Or.inr (Or.inr (Or.inl ⟨i, hi.symm⟩))
            · split at hi
              · rename_i i hid
                injection hi with hi
                exact Or.inr (Or.inr (Or.inl ⟨i, hi.symm⟩))
              · exact absurd hi (by simp)
          · exact Or.inr (Or.inr (Or.inr (hog u h)))

/-- Witness for C8 at a concrete input: a row with a clean absolute image. -/
theorem thumbnailResolvers_spec_witness :
    ∃ src : PyStr, src.isEmpty = false ∧ pyStarts (pstr "data:") src = false ∧
      (∀ p ∈ THUMB_EXCLUDE_PATTERNS, pyContains p (pyLower src) = false) ∧
      pstr "https://example.com/photo.jpg" =
        if pyStarts (pstr "http") src then src
        else urljoin (pstr "https://www.clien.net/") src := by
  exact thumbnailResolvers_spec.1
    (some (.elem (pstr "tr") []
      (.cons (.elem (pstr "img") [(pstr "src", pstr "https://example.com/photo.jpg")]
        .nil) .nil)))
    (pstr "https://www.clien.net/") (pstr "https://example.com/photo.jpg")
    (by decide)

/-- Counterexample to claim C8 as stated: on a detail page whose body
container holds only a `<video poster=".../icon.png">`, the resolver returns
the poster URL although it matches the noise pattern `icon` in both
exclusion lists — the poster branch never applies them. -/
theorem thumbnail_noise_escapes :
    extractFirstMediaFromContent
      (.cons (.elem (pstr "div") [(pstr "class", pstr "post_article")]
        (.cons (.elem (pstr "video")
          [(pstr "poster", pstr "https://example.com/icon.png")] .nil) .nil)) .nil)
      (pstr "clien") (pstr "https://www.clien.net/") =
      some (pstr "https://example.com/icon.png") ∧
    pstr "icon" ∈ THUMB_EXCLUDE_PATTERNS ∧
    pstr "icon" ∈ DETAIL_IMG_EXCLUDE ∧
    pyContains (pstr "icon") (pyLower (pstr "https://example.com/icon.png")) = true := by
  refine ⟨by decide, by decide, by decide, by decide⟩

/-! ## HTML sanitizer (claim C1) -/

/-- `ALLOWED_TAGS` (extractor.py lines 55-61). -/
def ALLOWED_TAGS : List PyStr :=
  [pstr "p", pstr "br", pstr "img", pstr "strong", pstr "em", pstr "b", pstr "i",
   pstr "h1", pstr "h2", pstr "h3", pstr "h4", pstr "h5", pstr "h6",
   pstr "ul", pstr "ol", pstr "li", pstr "blockquote", pstr "a", pstr "div",
   pstr "span", pstr "table", pstr "tr", pstr "td", pstr "th", pstr "thead",
   pstr "tbody", pstr "figure", pstr "figcaption", pstr "video", pstr "source"]

/-- `ALLOWED_ATTRS` (extractor.py lines 62-68). -/
def ALLOWED_ATTRS : List (PyStr × List PyStr) :=
  [(pstr "img", [pstr "src", pstr "alt", pstr "loading", pstr "referrerpolicy"]),
   (pstr "a", [pstr "href"]),
   (pstr "video", [pstr "src", pstr "poster", pstr "controls", pstr "autoplay",
     pstr "loop", pstr "muted", pstr "playsinline"]),
   (pstr "source", [pstr "src", pstr "type"]),
   (pstr "*", [pstr "style"])]

/-- `ALLOWED_CSS_PROPS` (extractor.py lines 71-79). -/
def ALLOWED_CSS_PROPS : List PyStr :=
  [pstr "text-align", pstr "font-size", pstr "font-weight", pstr "font-style",
   pstr "color", pstr "background-color",
   pstr "margin", pstr "margin-top", pstr "margin-bottom", pstr "margin-left",
   pstr "margin-right", pstr "padding", pstr "padding-top", pstr "padding-bottom",
   pstr "padding-left", pstr "padding-right",
   pstr "width", pstr "max-width", pstr "height",
   pstr "display", pstr "text-decoration", pstr "line-height",
   pstr "letter-spacing", pstr "border", pstr "border-bottom", pstr "border-top"]

/-- The blocked-token list of `_sanitize_css` (extractor.py line 327). -/
def CSS_DANGER : List PyStr :=
  [pstr "url(", pstr "expression(", pstr "javascript:", pstr "import"]

/-- Python `s.split(sep)` for a single-character separator (keeps empty
fields, as `str.split` with an argument does). -/
def splitOnChar (sep : Char) (s : PyStr) : List PyStr :=
  s.foldr (fun c acc =>
    if c = sep then [] :: acc
    else
      match acc with
      | a :: as => (c :: a) :: as
      | [] => [[c]]) [[]]

/-- One declaration of `_sanitize_css`'s loop (extractor.py lines 319-330):
skipped (`none`) unless it has a colon, a value free of the blocked tokens,
and a property on the allow-list. -/
def sanitizeCssDecl (declaration : PyStr) : Option PyStr :=
  let d := pyStrip declaration
  if d.isEmpty || !pyContains (pstr ":") d then none
  else
    let prop := pyLower (pyStrip (d.takeWhile (fun c => c ≠ ':')))
    let v := pyStrip ((d.dropWhile (fun c => c ≠ ':')).drop 1)
    if CSS_DANGER.any (fun t => pyContains t (pyLower v)) then none
    else if ALLOWED_CSS_PROPS.contains prop then some (prop ++ pstr ": " ++ v)
    else none

/-- `"; ".join(...)`. -/
def joinSep (sep : PyStr) : List PyStr → PyStr
  | [] => []
  | [x] => x
  | x :: y :: rest => x ++ sep ++ joinSep sep (y :: rest)

/-- Translation of `_sanitize_css` (extractor.py lines 316-331). -/
def sanitizeCss (style : PyStr) : PyStr :=
  joinSep (pstr "; ") ((splitOnChar ';' style).filterMap sanitizeCssDecl)

/-- The tags `_sanitize_html` decomposes outright (extractor.py line 272). -/
def DANGEROUS_TAGS : List PyStr :=
  [pstr "script", pstr "style", pstr "iframe", pstr "noscript", pstr "object",
   pstr "embed", pstr "form", pstr "input"]

/-- Forest concatenation. -/
def hcat : HForest → HForest → HForest
  | .nil, g => g
  | .cons x f, g => .cons x (hcat f g)

mutual
/-- Pass 1 of `_sanitize_html` (extractor.py lines 271-273): `decompose()`
of every dangerous-tag subtree. -/
def stripDangerousNode : HNode → HForest
  | .text s => .cons (.text s) .nil
  | .elem t attrs cs =>
    if DANGEROUS_TAGS.contains t then .nil
    else .cons (.elem t attrs (stripDangerousForest cs)) .nil
def stripDangerousForest : HForest → HForest
  | .nil => .nil
  | .cons x rest => hcat (stripDangerousNode x) (stripDangerousForest rest)
end

mutual
/-- Pass 2 (extractor.py lines 276-278): tags off the allow-list are
unwrapped, keeping their children. -/
def unwrapDisallowedNode : HNode → HForest
  | .text s => .cons (.text s) .nil
  | .elem t attrs cs =>
    if ALLOWED_TAGS.contains t then
      .cons (.elem t attrs (unwrapDisallowedForest cs)) .nil
    else unwrapDisallowedForest cs
def unwrapDisallowedForest : HForest → HForest
  | .nil => .nil
  | .cons x rest => hcat (unwrapDisallowedNode x) (unwrapDisallowedForest rest)
end

/-- Allowed attribute names for a tag:
`ALLOWED_ATTRS.get(tag.name, set()) | ALLOWED_ATTRS["*"]`. -/
def allowedAttrsFor (t : PyStr) : List PyStr :=
  (match ALLOWED_ATTRS.find? (fun kv => kv.1 == t) with
   | some kv => kv.2
   | none => []) ++
  (match ALLOWED_ATTRS.find? (fun kv => kv.1 == pstr "*") with
   | some kv => kv.2
   | none => [])

/-- Pass 3 attribute handling for one element (extractor.py lines 281-292):
attributes off the allow-list dropped; a non-empty inline style replaced by
its sanitization, and removed when the sanitization comes back empty. -/
def filterAttrsList (t : PyStr) (attrs : List (PyStr × PyStr)) :
    List (PyStr × PyStr) :=
  (attrs.filter (fun kv => (allowedAttrsFor t).contains kv.1)).filterMap
    (fun kv =>
      if kv.1 == pstr "style" && !kv.2.isEmpty then
        if (sanitizeCss kv.2).isEmpty then none else some (kv.1, sanitizeCss kv.2)
      else some kv)

mutual
/-- Pass 3 over the tree. -/
def filterAttrsNode : HNode → HNode
  | .text s => .text s
  | .elem t attrs cs => .elem t (filterAttrsList t attrs) (filterAttrsForest cs)
def filterAttrsForest : HForest → HForest
  | .nil => .nil
  | .cons x rest => .cons (filterAttrsNode x) (filterAttrsForest rest)
end

mutual
/-- Pass 4 (extractor.py lines 295-300): anchors with an empty or raw
`javascript:`-prefixed href are unwrapped; other non-`http`/`mailto:`/`#`
hrefs are resolved against the base URL. -/
def fixAnchorsNode (base : PyStr) : HNode → HForest
  | .text s => .cons (.text s) .nil
  | .elem t attrs cs =>
    if t == pstr "a" && (attrs.find? (fun kv => kv.1 == pstr "href")).isSome then
      let href := ((attrs.find? (fun kv => kv.1 == pstr "href")).map
        (fun kv => kv.2)).getD []
      if href.isEmpty || pyStarts (pstr "javascript:") (pyLower href) then
        fixAnchorsForest base cs
      else if !base.isEmpty && !(pyStarts (pstr "http") href ||
          pyStarts (pstr "mailto:") href || pyStarts (pstr "#") href) then
        .cons (.elem t (attrs.map (fun kv =>
          if kv.1 == pstr "href" then (kv.1, urljoin base href) else kv))
          (fixAnchorsForest base cs)) .nil
      else .cons (.elem t attrs (fixAnchorsForest base cs)) .nil
    else .cons (.elem t attrs (fixAnchorsForest base cs)) .nil
def fixAnchorsForest (base : PyStr) : HForest → HForest
  | .nil => .nil
  | .cons x rest => hcat (fixAnchorsNode base x) (fixAnchorsForest base rest)
end

/-- Translation of `_sanitize_html` (extractor.py lines 267-313) as the tree
transformation it performs.  The final serialization escapes text and
attribute values, and the three closing regex cleanups only delete comments,
empty `p`/`div`/`span` pairs and excess `<br>`s, so the tree below is the
authoritative element/attribute content of the output string. -/
def sanitizeHtml (doc : HForest) (baseUrl : PyStr) : HForest :=
  fixAnchorsForest baseUrl
    (filterAttrsForest (unwrapDisallowedForest (stripDangerousForest doc)))

/-- Claim C1 (code bug): the javascript-href guard tests the raw string
prefix only.  An anchor with `href=" javascript:alert(1)"` — one leading
space — survives sanitization verbatim: the prefix check misses it, and the
resolution step's `urljoin` returns URLs with a non-relative scheme
unchanged.  The very URL parser the code calls assigns this href the
`javascript` scheme (browsers strip the same whitespace before following a
link), so a javascript-scheme anchor href reaches the sanitized output. -/
theorem sanitizeHtml_javascript_href_escapes :
    sanitizeHtml
      (.cons (.elem (pstr "a") [(pstr "href", pstr " javascript:alert(1)")]
        (.cons (.text (pstr "click")) .nil)) .nil)
      (pstr "https://example.com/") =
      .cons (.elem (pstr "a") [(pstr "href", pstr " javascript:alert(1)")]
        (.cons (.text (pstr "click")) .nil)) .nil ∧
    (pySplitScheme (pstr " javascript:alert(1)")).map (fun sr => sr.1) =
      some (pstr "javascript") ∧
    pyStarts (pstr "javascript:") (pyLower (pstr " javascript:alert(1)")) = false := by
  refine ⟨by decide, by decide, by decide⟩

/-! ## URL invariant lemmas (claim C2) -/

lemma pyStarts_ne_nil {p s : PyStr} (h : pyStarts p s = true) (hp : p ≠ []) :
    s ≠ [] := by
  rcases pyStarts_iff.mp h with ⟨t, rfl⟩
  cases p with
  | nil => exact absurd rfl hp
  | cons c cs => simp

lemma pyStarts_append_left (p s t : PyStr) (h : pyStarts p s = true) :
    pyStarts p (s ++ t) = true := by
  rcases pyStarts_iff.mp h with ⟨r, rfl⟩
  exact pyStarts_iff.mpr ⟨r ++ t, by rw [List.append_assoc]⟩

lemma pyStarts_refl (p : PyStr) : pyStarts p p = true :=
  pyStarts_iff.mpr ⟨[], by simp⟩

lemma joinParsed_starts (sl bnetloc bpath rest p : PyStr)
    (h : pyStarts p sl = true) :
    pyStarts p (joinParsed sl bnetloc bpath rest) = true := by
  rw [joinParsed]
  split
  · exact pyStarts_append_left _ _ _ (pyStarts_append_left _ _ _ h)
  · split
    · exact pyStarts_append_left _ _ _
        (pyStarts_append_left _ _ _ (pyStarts_append_left _ _ _ h))
    · split
      · exact pyStarts_append_left _ _ _
          (pyStarts_append_left _ _ _ (pyStarts_append_left _ _ _ h))
      · exact pyStarts_append_left _ _ _
          (pyStarts_append_left _ _ _ (pyStarts_append_left _ _ _ h))

/-- The base URL carries an `http` or `https` scheme — true of every
hard-coded base in the crawler, and the hypothesis under which relative
resolution lands on an absolute URL. -/
def httpBase (base : PyStr) : Bool :=
  baseSchemeOf base == pstr "http" || baseSchemeOf base == pstr "https"

lemma urljoinCore_inv (bsch bnetloc bpath u : PyStr)
    (hb : bsch = pstr "http" ∨ bsch = pstr "https") :
    pyStarts (pstr "http") (urljoinCore bsch bnetloc bpath u) = true ∨
    (urljoinCore bsch bnetloc bpath u = u ∧ (pySplitScheme u).isSome = true) := by
  have hbs : pyStarts (pstr "http") bsch = true := by
    rcases hb with rfl | rfl <;> decide
  have hbu : bsch ∈ usesRelative := by
    rcases hb with rfl | rfl <;> decide
  rw [urljoinCore]
  split
  · rename_i sr hsp
    by_cases hc : sr.1 = bsch ∧ sr.1 ∈ usesRelative
    · rw [if_pos hc]
      exact Or.inl (joinParsed_starts _ _ _ _ _ (hc.1 ▸ hbs))
    · rw [if_neg hc]
      exact Or.inr ⟨rfl, by rw [hsp]; rfl⟩
  · rw [if_pos hbu]
    exact Or.inl (joinParsed_starts _ _ _ _ _ hbs)

/-- The URL invariant of amended C2: non-empty, and `http`-prefixed unless
the record's URL came through unchanged from an href carrying its own
explicit scheme. -/
def urlInvariant (u : PyStr) : Prop :=
  u ≠ [] ∧ (pyStarts (pstr "http") u = true ∨ (pySplitScheme u).isSome = true)

lemma urljoin_inv (base u : PyStr) (hb : httpBase base = true) :
    urlInvariant (urljoin base u) := by
  have hbsch : baseSchemeOf base = pstr "http" ∨ baseSchemeOf base = pstr "https" := by
    rcases Bool.or_eq_true_iff.mp hb with h | h
    · exact Or.inl (by simpa using h)
    · exact Or.inr (by simpa using h)
  have hbne : base ≠ [] := by
    intro hEq
    rw [hEq] at hbsch
    rcases hbsch with h' | h' <;> exact absurd h' (by decide)
  rw [urljoin, if_neg hbne]
  by_cases hu : u = []
  · rw [if_pos hu]
    refine ⟨hbne, Or.inr ?_⟩
    rw [pySplitScheme]
    cases hss : splitSchemeClean (pyUrlClean base) with
    | some sr => rfl
    | none =>
      simp only [baseSchemeOf, hss] at hbsch
      rcases hbsch with h' | h' <;> exact absurd h' (by decide)
  · rw [if_neg hu]
    rcases urljoinCore_inv (baseSchemeOf base) _ _ u hbsch with h | ⟨heq, hsome⟩
    · exact ⟨pyStarts_ne_nil h (by decide), Or.inl h⟩
    · exact ⟨by rw [heq]; exact hu, Or.inr (by rw [heq]; exact hsome)⟩

lemma absUrl_inv (href base : PyStr) (hb : httpBase base = true) :
    urlInvariant (absUrl href base) := by
  rw [absUrl]
  split
  · rename_i h
    exact ⟨pyStarts_ne_nil h (by decide), Or.inl h⟩
  · split
    · exact urljoin_inv _ _ (by decide)
    · exact urljoin_inv _ _ hb

/-! ## The ppomppu URL rewrite (`urlparse` / `parse_qs` / `urlencode` /
`urlunparse`), crawler/main.py lines 1016-1019 -/

/-- Components of `urlparse` (the `params` component is merged into `path`;
no crawler URL carries `;` parameters). -/
structure UrlParts where
  scheme : PyStr
  netloc : PyStr
  path : PyStr
  query : PyStr
  fragment : PyStr
deriving DecidableEq

/-- Model of `urllib.parse.urlparse`. -/
def pyUrlParse (url : PyStr) : UrlParts :=
  { scheme := baseSchemeOf url,
    netloc := (splitNetlocPath (baseRestOf url)).1,
    path := ((splitNetlocPath (baseRestOf url)).2.takeWhile
      (fun c => c ≠ '#')).takeWhile (fun c => c ≠ '?'),
    query := (((splitNetlocPath (baseRestOf url)).2.takeWhile
      (fun c => c ≠ '#')).dropWhile (fun c => c ≠ '?')).drop 1,
    fragment := ((splitNetlocPath (baseRestOf url)).2.dropWhile
      (fun c => c ≠ '#')).drop 1 }

/-- Everything `urlunparse` emits after the scheme prefix. -/
def pyUrlUnparseTail (p : UrlParts) : PyStr :=
  (if !p.netloc.isEmpty || pyStarts (pstr "//") p.path then
    pstr "//" ++ p.netloc ++
      (if !p.path.isEmpty && !pyStarts (pstr "/") p.path then pstr "/" ++ p.path
       else p.path)
   else p.path) ++
  (if p.query.isEmpty then [] else pstr "?" ++ p.query) ++
  (if p.fragment.isEmpty then [] else pstr "#" ++ p.fragment)

/-- Model of `urllib.parse.urlunparse`. -/
def pyUrlUnparse (p : UrlParts) : PyStr :=
  (if p.scheme.isEmpty then [] else p.scheme ++ pstr ":") ++ pyUrlUnparseTail p

/-- Key list with first-occurrence order and duplicates removed (the
ordering of a `parse_qs` result dict). -/
def uniqKeysAux (seen : List PyStr) : List PyStr → List PyStr
  | [] => []
  | k :: rest =>
    if seen.contains k then uniqKeysAux seen rest
    else k :: uniqKeysAux (k :: seen) rest

/-- `urlencode({k: v for k, v in parse_qs(query).items() if k in ("id",
"no")}, doseq=True)`: query fields with a non-empty value, grouped per key in
first-occurrence order, kept for the keys `id` and `no`.  Percent-coding
round-trips are omitted — the kept values are plain alphanumerics at every
call site. -/
def filterQueryIdNo (query : PyStr) : PyStr :=
  joinSep (pstr "&")
    (((uniqKeysAux [] (((splitOnChar '&' query).filterMap (fun field =>
        if pyContains (pstr "=") field then
          if ((field.dropWhile (fun c => c ≠ '=')).drop 1).isEmpty then none
          else some (field.takeWhile (fun c => c ≠ '='),
            (field.dropWhile (fun c => c ≠ '=')).drop 1)
        else none)).map (fun kv => kv.1))).filter
      (fun k => k == pstr "id" || k == pstr "no")).map (fun k =>
        (((splitOnChar '&' query).filterMap (fun field =>
          if pyContains (pstr "=") field then
            if ((field.dropWhile (fun c => c ≠ '=')).drop 1).isEmpty then none
            else some (field.takeWhile (fun c => c ≠ '='),
              (field.dropWhile (fun c => c ≠ '=')).drop 1)
          else none)).filter (fun kv => kv.1 == k)).map
            (fun kv => k ++ pstr "=" ++ kv.2)) |>.flatten)

/-- The ppomppu URL rewrite (crawler/main.py lines 1017-1019): re-assemble
the URL keeping only the `id` and `no` query parameters. -/
def ppomppuRewrite (url : PyStr) : PyStr :=
  pyUrlUnparse { pyUrlParse url with query := filterQueryIdNo (pyUrlParse url).query }

/-! Character-level lemmas used to push the URL invariant through the
rewrite. -/

lemma char_toNat_ofNat {n : Nat} (h : n < 55296) : (Char.ofNat n).toNat = n := by
  rw [Char.ofNat, dif_pos (Or.inl h)]
  rfl

lemma uint32_le_iff {a b : UInt32} : a ≤ b ↔ a.toNat ≤ b.toNat := by
  rw [UInt32.le_def, BitVec.le_def]
  rfl

lemma ofNat_shift_isLower {n : Nat} (h1 : 65 ≤ n) (h2 : n ≤ 90) :
    (Char.ofNat (n + 32)).isLower = true := by
  have hv : (Char.ofNat (n + 32)).toNat = n + 32 := char_toNat_ofNat (by omega)
  have hv' : (Char.ofNat (n + 32)).val.toNat = n + 32 := hv
  have h97 : (97 : UInt32).toNat = 97 := rfl
  have h122 : (122 : UInt32).toNat = 122 := rfl
  simp only [Char.isLower, Bool.and_eq_true, decide_eq_true_eq, GE.ge]
  constructor
  · rw [uint32_le_iff, h97, hv']
    omega
  · rw [uint32_le_iff, h122, hv']
    omega

lemma toLower_isAlpha {c : Char} (h : c.isAlpha = true) :
    (Char.toLower c).isAlpha = true := by
  rw [Char.toLower]
  split
  · rename_i hc
    have := ofNat_shift_isLower hc.1 hc.2
    simp [Char.isAlpha, this]
  · exact h

lemma toLower_schemeChar {c : Char} (h : isSchemeChar c = true) :
    isSchemeChar (Char.toLower c) = true := by
  rw [Char.toLower]
  split
  · rename_i hc
    have := ofNat_shift_isLower hc.1 hc.2
    simp [isSchemeChar, Char.isAlpha, this]
  · exact h

lemma alpha_gt32 {c : Char} (h : c.isAlpha = true) :
    decide (c.toNat ≤ 32) = false := by
  have h65 : (65 : UInt32).toNat = 65 := rfl
  have h97 : (97 : UInt32).toNat = 97 := rfl
  simp only [Char.isAlpha, Char.isUpper, Char.isLower, Bool.or_eq_true,
    Bool.and_eq_true, decide_eq_true_eq, GE.ge] at h
  simp only [decide_eq_false_iff_not, Char.toNat]
  rcases h with ⟨h1, _⟩ | ⟨h1, _⟩
  · rw [uint32_le_iff, h65] at h1
    omega
  · rw [uint32_le_iff, h97] at h1
    omega

lemma schemeChar_ne {c : Char} (h : isSchemeChar c = true) :
    c ≠ ':' ∧ c ≠ '\t' ∧ c ≠ '\n' ∧ c ≠ '\r' := by
  refine ⟨?_, ?_, ?_, ?_⟩ <;> rintro rfl <;> exact absurd h (by decide)

lemma splitSchemeClean_props {u s r : PyStr}
    (h : splitSchemeClean u = some (s, r)) :
    s ≠ [] ∧ (s.headD '0').isAlpha = true ∧ s.all isSchemeChar = true := by
  rw [splitSchemeClean] at h
  split at h
  · rename_i hcond
    injection h with h
    rw [Prod.mk.injEq] at h
    obtain ⟨hs, _⟩ := h
    rcases Bool.and_eq_true_iff.mp hcond with ⟨hc1, hall⟩
    rcases Bool.and_eq_true_iff.mp hc1 with ⟨_, hhead⟩
    subst hs
    cases hsch : u.takeWhile (fun c => c ≠ ':') with
    | nil => rw [hsch] at hhead; exact absurd hhead (by decide)
    | cons c cs =>
      rw [hsch] at hhead hall
      simp only [List.headD_cons] at hhead
      refine ⟨by simp [pyLower], ?_, ?_⟩
      · simp only [pyLower, List.map_cons, List.headD_cons]
        exact toLower_isAlpha hhead
      · rw [pyLower, List.all_map]
        refine List.all_eq_true.mpr fun x hx => ?_
        exact toLower_schemeChar ((List.all_eq_true.mp hall) x hx)
  · exact absurd h (by simp)

lemma pyStarts_filter (pre u : PyStr) (f : Char → Bool)
    (hpre : ∀ c ∈ pre, f c = true) (h : pyStarts pre u = true) :
    pyStarts pre (u.filter f) = true := by
  rcases pyStarts_iff.mp h with ⟨t, rfl⟩
  rw [List.filter_append, List.filter_eq_self.mpr hpre]
  exact pyStarts_append_left _ _ _ (pyStarts_refl pre)

lemma append_dropWhile_of_head (pre t : PyStr) (p : Char → Bool)
    (hne : pre ≠ []) (hh : p (pre.headD ' ') = false) :
    (pre ++ t).dropWhile p = pre ++ t := by
  cases pre with
  | nil => exact absurd rfl hne
  | cons c cs =>
    simp only [List.headD_cons] at hh
    rw [List.cons_append]
    exact List.dropWhile_cons_of_neg (by simp [hh])

lemma pyStarts_rstrip_pres (pre s : PyStr) (p : Char → Bool) (hne : pre ≠ [])
    (hl : p (pre.reverse.headD ' ') = false) (h : pyStarts pre s = true) :
    pyStarts pre ((s.reverse.dropWhile p).reverse) = true := by
  rcases pyStarts_iff.mp h with ⟨t, rfl⟩
  rw [List.reverse_append, List.dropWhile_append]
  split
  · cases hpr : pre.reverse with
    | nil => exact absurd (by simpa using congrArg List.reverse hpr) hne
    | cons c cs =>
      rw [hpr] at hl
      simp only [List.headD_cons] at hl
      rw [List.dropWhile_cons_of_neg (by simp [hl]), ← hpr,
        List.reverse_reverse]
      exact pyStarts_refl pre
  · rw [List.reverse_append, List.reverse_reverse]
    exact pyStarts_append_left _ _ _ (pyStarts_refl pre)

lemma pyStarts_http_clean {u : PyStr} (h : pyStarts (pstr "http") u = true) :
    pyStarts (pstr "http") (pyUrlClean u) = true := by
  rw [pyUrlClean]
  have h1 := pyStarts_filter (pstr "http") u
    (fun c => decide (c ≠ '\t' ∧ c ≠ '\n' ∧ c ≠ '\r')) (by decide) h
  rcases pyStarts_iff.mp h1 with ⟨t1, heq1⟩
  rw [heq1, append_dropWhile_of_head _ _ _ (by decide) (by decide)]
  exact pyStarts_rstrip_pres _ _ _ (by decide) (by decide)
    (pyStarts_iff.mpr ⟨t1, rfl⟩)

lemma pySplitScheme_rebuild (s X : PyStr) (hs : s ≠ [])
    (hhead : (s.headD '0').isAlpha = true) (hall : s.all isSchemeChar = true) :
    (pySplitScheme (s ++ pstr ":" ++ X)).isSome = true := by
  have hcolon : pstr ":" = [':'] := rfl
  rw [hcolon]
  obtain ⟨c, cs, rfl⟩ : ∃ c cs, s = c :: cs := by
    cases s with
    | nil => exact absurd rfl hs
    | cons c cs => exact ⟨c, cs, rfl⟩
  have hcalpha : c.isAlpha = true := by simpa using hhead
  have hschars := List.all_eq_true.mp hall
  -- cleanup keeps the scheme-and-colon segment intact
  have hfself : (c :: cs ++ [':']).filter
      (fun x => decide (x ≠ '\t' ∧ x ≠ '\n' ∧ x ≠ '\r')) = c :: cs ++ [':'] := by
    refine List.filter_eq_self.mpr fun x hx => ?_
    have hx' : x = c ∨ x ∈ cs ∨ x = ':' := by simpa using hx
    rcases hx' with rfl | hx' | rfl
    · rcases schemeChar_ne (hschars x (by simp)) with ⟨_, h2, h3, h4⟩
      simp [h2, h3, h4]
    · rcases schemeChar_ne (hschars x (by simp [hx'])) with ⟨_, h2, h3, h4⟩
      simp [h2, h3, h4]
    · decide
  have hclean : ∃ X₂, pyUrlClean (c :: cs ++ [':'] ++ X) =
      (c :: cs ++ [':']) ++ X₂ := by
    rw [pyUrlClean]
    have hre : (c :: cs ++ [':'] ++ X) = (c :: cs ++ [':']) ++ X := by
      simp [List.append_assoc]
    rw [hre, List.filter_append, hfself]
    rw [append_dropWhile_of_head _ _ _ (by simp)
      (by simpa using alpha_gt32 hcalpha)]
    rw [List.reverse_append, List.dropWhile_append]
    split
    · refine ⟨[], ?_⟩
      have hrev : (c :: cs ++ [':']).reverse = ':' :: (c :: cs).reverse := by
        rw [List.reverse_append]
        rfl
      rw [hrev, List.dropWhile_cons_of_neg (by decide), ← hrev,
        List.reverse_reverse, List.append_nil]
    · refine ⟨((X.filter (fun x => decide (x ≠ '\t' ∧ x ≠ '\n' ∧
        x ≠ '\r'))).reverse.dropWhile (fun x => decide (x.toNat ≤ 32))).reverse, ?_⟩
      rw [List.reverse_append, List.reverse_reverse]
  obtain ⟨X₂, hX₂⟩ := hclean
  rw [pySplitScheme, hX₂, splitSchemeClean]
  have htake : ((c :: cs ++ [':']) ++ X₂).takeWhile (fun x => x ≠ ':') =
      c :: cs := by
    have hre : ((c :: cs ++ [':']) ++ X₂) = (c :: cs) ++ ([':'] ++ X₂) := by
      simp [List.append_assoc]
    rw [hre, List.takeWhile_append_of_pos (fun a ha => by
      simpa using (schemeChar_ne (hschars a ha)).1)]
    simp [List.takeWhile_cons]
  rw [htake]
  rw [if_pos ?_]
  · rfl
  · refine Bool.and_eq_true_iff.mpr ⟨Bool.and_eq_true_iff.mpr ⟨?_, ?_⟩, hall⟩
    · simp only [decide_eq_true_eq, List.length_append, List.length_cons]
      omega
    · simpa using hcalpha

lemma pyStarts_unparse_http {p : UrlParts}
    (hsch : pyStarts (pstr "http") p.scheme = true) :
    pyStarts (pstr "http") (pyUrlUnparse p) = true := by
  rw [pyUrlUnparse, if_neg (by
    intro hEq
    exact absurd (List.isEmpty_iff.mp hEq ▸ hsch) (by decide))]
  exact pyStarts_append_left _ _ _ (pyStarts_append_left _ _ _ hsch)

lemma pyStarts_path_http {p : UrlParts} (hsch : p.scheme = [])
    (hnl : p.netloc = []) (hpath : pyStarts (pstr "http") p.path = true) :
    pyStarts (pstr "http") (pyUrlUnparse p) = true := by
  have hnotss : pyStarts (pstr "//") p.path = false := by
    rcases pyStarts_iff.mp hpath with ⟨t, ht⟩
    rw [ht]
    rfl
  rw [pyUrlUnparse, pyUrlUnparseTail, hsch, hnl]
  rw [if_pos (by decide), List.nil_append]
  rw [if_neg (by simp [hnotss])]
  exact pyStarts_append_left _ _ _ (pyStarts_append_left _ _ _ hpath)

/-- Pushing the URL invariant through the ppomppu query rewrite. -/
lemma ppomppuRewrite_inv {u : PyStr} (h : urlInvariant u) :
    urlInvariant (ppomppuRewrite u) := by
  obtain ⟨hne, hcase⟩ := h
  have hsplit : pySplitScheme u = splitSchemeClean (pyUrlClean u) := rfl
  rcases hcase with hhttp | hscheme
  · -- the URL is http-prefixed
    have hw : pyStarts (pstr "http") (pyUrlClean u) = true :=
      pyStarts_http_clean hhttp
    cases hss : splitSchemeClean (pyUrlClean u) with
    | some sr =>
      -- the scheme itself is http-prefixed
      have hs : pyStarts (pstr "http") sr.1 = true := by
        rcases pyStarts_iff.mp hw with ⟨t, ht⟩
        rw [splitSchemeClean] at hss
        split at hss
        · injection hss with hss
          rw [← hss]
          have h4 : pstr "http" = ['h', 't', 't', 'p'] := rfl
          rw [ht, h4, List.takeWhile_append_of_pos (by decide)]
          have : pyLower (['h', 't', 't', 'p'] ++
              t.takeWhile (fun c => c ≠ ':')) = ['h', 't', 't', 'p'] ++
              pyLower (t.takeWhile (fun c => c ≠ ':')) := by
            simp [pyLower]
          rw [this, ← h4]
          exact pyStarts_append_left _ _ _ (pyStarts_refl _)
        · exact absurd hss (by simp)
      have hsch : (pyUrlParse u).scheme = sr.1 := by
        simp [pyUrlParse, baseSchemeOf, hss]
      have := pyStarts_unparse_http (p := { pyUrlParse u with
        query := filterQueryIdNo (pyUrlParse u).query }) (by simpa [hsch] using hs)
      exact ⟨pyStarts_ne_nil this (by decide), Or.inl this⟩
    | none =>
      -- no scheme recognized: the cleaned URL flows into the path slot
      have hsch : (pyUrlParse u).scheme = [] := by
        simp [pyUrlParse, baseSchemeOf, hss]
      have hrest : baseRestOf u = pyUrlClean u := by
        simp [baseRestOf, hss]
      have hnotss : pyStarts (pstr "//") (pyUrlClean u) = false := by
        rcases pyStarts_iff.mp hw with ⟨t, ht⟩
        rw [ht]
        rfl
      have hnp : splitNetlocPath (baseRestOf u) = ([], pyUrlClean u) := by
        rw [hrest, splitNetlocPath, if_neg (by simp [hnotss])]
      have hnl : (pyUrlParse u).netloc = [] := by simp [pyUrlParse, hnp]
      have hpath : pyStarts (pstr "http") (pyUrlParse u).path = true := by
        have hp : (pyUrlParse u).path = ((pyUrlClean u).takeWhile
            (fun c => c ≠ '#')).takeWhile (fun c => c ≠ '?') := by
          simp [pyUrlParse, hnp]
        rcases pyStarts_iff.mp hw with ⟨t, ht⟩
        have h4 : pstr "http" = ['h', 't', 't', 'p'] := rfl
        rw [hp, ht, h4, List.takeWhile_append_of_pos (by decide),
          List.takeWhile_append_of_pos (by decide), ← h4]
        exact pyStarts_append_left _ _ _ (pyStarts_refl _)
      have := pyStarts_path_http (p := { pyUrlParse u with
        query := filterQueryIdNo (pyUrlParse u).query }) hsch hnl hpath
      exact ⟨pyStarts_ne_nil this (by decide), Or.inl this⟩
  · -- the URL carries its own scheme: the rewrite reassembles it in front
    rw [hsplit] at hscheme
    cases hss : splitSchemeClean (pyUrlClean u) with
    | none => rw [hss] at hscheme; exact absurd hscheme (by simp)
    | some sr =>
      obtain ⟨s, r⟩ := sr
      obtain ⟨hs1, hs2, hs3⟩ := splitSchemeClean_props hss
      have hsch : (pyUrlParse u).scheme = s := by
        simp [pyUrlParse, baseSchemeOf, hss]
      have hform : pyUrlUnparse { pyUrlParse u with
          query := filterQueryIdNo (pyUrlParse u).query } =
          s ++ pstr ":" ++ (pyUrlUnparseTail { pyUrlParse u with
            query := filterQueryIdNo (pyUrlParse u).query }) := by
        rw [pyUrlUnparse]
        have hsc : ({ pyUrlParse u with
            query := filterQueryIdNo (pyUrlParse u).query } : UrlParts).scheme =
            s := hsch
        rw [hsc, if_neg (by
          intro hEq
          exact hs1 (List.isEmpty_iff.mp hEq))]
      rw [ppomppuRewrite]
      rw [hform]
      refine ⟨?_, Or.inr (pySplitScheme_rebuild s _ hs1 hs2 hs3)⟩
      intro hc
      rw [List.append_assoc] at hc
      cases s with
      | nil => exact hs1 rfl
      | cons a as => simp at hc

/-- Python `s.strip("...")` with an explicit character set. -/
def pyStripChars (cs : List Char) (s : PyStr) : PyStr :=
  ((s.dropWhile (fun c => cs.contains c)).reverse.dropWhile
    (fun c => cs.contains c)).reverse

/-! ## Source adapters (claim C2)

Each `parse_*` below translates the like-named adapter of crawler/main.py.
Every loop body is factored into a `*Row` function returning `Option Post`
(`none` is the loop's `continue`), so each parser is
`dedupe ∘ filterMap row ∘ select`, exactly the shape of the source's
accumulate-and-dedupe loops. -/

/-- Loop body of `parse_fmkorea` (crawler/main.py lines 185-216). -/
def fmkoreaRow (tr : HNode × List HNode) : Option Post :=
  if hasClass tr.1 (pstr "notice") then none
  else
    match selOneIn tr [selC "a" ["hx"]] with
    | none => none
    | some titleLink =>
      if (getTextStrip titleLink.1).isEmpty ||
          (getAttrD titleLink.1 (pstr "href")).isEmpty ||
          (getTextStrip titleLink.1).length < 3 then none
      else
        if (selInto tr [selC "td" []]).length < 5 then none
        else
          some { site := pstr "fmkorea",
                 title := getTextStrip titleLink.1,
                 url := absUrl (getAttrD titleLink.1 (pstr "href"))
                   (pstr "https://www.fmkorea.com/"),
                 author := ((selInto tr [selC "td" []]).get? 2).map
                   (fun td => getTextStrip td.1),
                 timestamp := ((selInto tr [selC "td" []]).get? 3).map
                   (fun td => getTextStrip td.1),
                 views := ((selInto tr [selC "td" []]).get? 4).bind
                   (fun td => toIntSafe (some (getTextStrip td.1))),
                 likes := ((selInto tr [selC "td" []]).get? 5).bind
                   (fun td => toIntSafe (some (getTextStrip td.1))),
                 comments := match selOneIn tr [selC "a" ["replyNum"]] with
                   | some ca => toIntSafe (some (getTextStrip ca.1))
                   | none => none,
                 thumbnail := extractThumbnail (some tr.1)
                   (pstr "https://www.fmkorea.com/") }

/-- Translation of `parse_fmkorea` (crawler/main.py lines 177-218). -/
def parse_fmkorea (soup : HForest) : List Post :=
  match selectOne soup [selC "table" ["bd_lst"]] with
  | none => []
  | some table =>
    dedupePosts ((selInto table [selC "tbody" [], selC "tr" []]).filterMap fmkoreaRow)

/-- `re.sub(r'\[\d+\].*$', '', title)`: cut from the first `[digits]` group
to the end. -/
def humorunivCut : PyStr → PyStr
  | [] => []
  | c :: rest =>
    if c == '[' &&
        (match rest with | d :: _ => d.isDigit | [] => false) &&
        (match rest.dropWhile Char.isDigit with
         | x :: _ => x == ']'
         | [] => false) then []
    else c :: humorunivCut rest

/-- Loop body of `parse_humoruniv` (crawler/main.py lines 271-296). -/
def humorunivRow (tr : HNode × List HNode) : Option Post :=
  match selOneIn tr [selC "td" ["li_sbj"], selSub "a" [] "href" "read.html"] with
  | none => none
  | some link =>
    if (getTextStrip link.1).isEmpty ||
        (getAttrD link.1 (pstr "href")).isEmpty ||
        (getTextStrip link.1).length < 3 then none
    else
      if (pyStrip (humorunivCut (getTextStrip link.1))).length < 3 then none
      else
        some { site := pstr "humoruniv",
               title := pyStrip (humorunivCut (getTextStrip link.1)),
               url := absUrl (getAttrD link.1 (pstr "href"))
                 (pstr "https://web.humoruniv.com/board/humor/"),
               views := ((selInto tr [selC "td" ["li_und"]]).get? 0).bind
                 (fun td => toIntSafe (some (getTextStrip td.1))),
               likes := ((selInto tr [selC "td" ["li_und"]]).get? 1).bind
                 (fun td => toIntSafe (some (getTextStrip td.1))),
               comments := ((selInto tr [selC "td" ["li_und"]]).get? 2).bind
                 (fun td => toIntSafe (some (getTextStrip td.1))),
               thumbnail := extractThumbnail (some tr.1)
                 (pstr "https://web.humoruniv.com/") }

/-- Translation of `parse_humoruniv` (crawler/main.py lines 265-298). -/
def parse_humoruniv (soup : HForest) : List Post :=
  dedupePosts ((select soup [selC "tr" []]).filterMap humorunivRow)

/-- Loop body of `parse_ruliweb` (crawler/main.py lines 328-372). -/
def ruliwebRow (tr : HNode × List HNode) : Option Post :=
  if hasClass tr.1 (pstr "notice") then none
  else
    match selOneIn tr [selC "td" ["subject"], selC "a" ["subject_link"]] with
    | none => none
    | some link =>
      if (getTextStrip link.1).isEmpty ||
          (getAttrD link.1 (pstr "href")).isEmpty ||
          (getTextStrip link.1).length < 5 then none
      else
        some { site := pstr "ruliweb",
               title := getTextStrip link.1,
               url := absUrl (getAttrD link.1 (pstr "href"))
                 (pstr "https://bbs.ruliweb.com/"),
               views := (selOneIn tr [selC "td" ["hit"]]).bind
                 (fun td => toIntSafe (some (getTextStrip td.1))),
               likes := (selOneIn tr [selC "td" ["recomd"]]).bind
                 (fun td => toIntSafe (some (getTextStrip td.1))),
               comments := (selOneIn tr [selC "span" ["num_reply"]]).bind
                 (fun sp => toIntSafe (some (pyStripChars ['[', ']']
                   (getTextStrip sp.1)))),
               author := (selOneIn tr [selC "td" ["writer"]]).map
                 (fun td => getTextStrip td.1),
               timestamp := (selOneIn tr [selC "td" ["time"]]).map
                 (fun td => getTextStrip td.1),
               thumbnail := extractThumbnail (some tr.1)
                 (pstr "https://bbs.ruliweb.com/") }

/-- Translation of `parse_ruliweb` (crawler/main.py lines 324-374). -/
def parse_ruliweb (soup : HForest) : List Post :=
  dedupePosts ((select soup [selC "table" ["board_list_table"],
    selC "tr" ["table_body"]]).filterMap ruliwebRow)

/-- Loop body of `parse_etoland` (crawler/main.py lines 384-439). -/
def etolandRow (li : HNode × List HNode) : Option Post :=
  if hasClass li.1 (pstr "ad_list") then none
  else
    match (match selOneIn li [selC "div" ["subject"], selC "a" ["subject_a"]] with
           | some x => some x
           | none => selOneIn li [selSub "a" [] "href" "etohumor07&wr_id="]) with
    | none => none
    | some link =>
      if pyContains (pstr "#commentContents") (getAttrD link.1 (pstr "href")) then
        none
      else
        if (pyStrip ((getTextStrip link.1).dropWhile Char.isDigit)).isEmpty ||
            (pyStrip ((getTextStrip link.1).dropWhile Char.isDigit)).length < 5 then
          none
        else
          some { site := pstr "etoland",
                 title := pyStrip ((getTextStrip link.1).dropWhile Char.isDigit),
                 url := absUrl (getAttrD link.1 (pstr "href"))
                   (pstr "https://www.etoland.co.kr/"),
                 views := (selOneIn li [selC "div" ["views"]]).bind
                   (fun d => toIntSafe (some (getTextStrip d.1))),
                 likes := (selOneIn li [selC "div" ["sympathys"]]).bind
                   (fun d => toIntSafe (some (getTextStrip d.1))),
                 comments := (match (match selOneIn li [selC "a" ["comment_count"],
                     selC "b" []] with
                   | some x => some x
                   | none => selOneIn li [selC "span" ["comment_count"],
                       selC "b" []]) with
                   | some b => toIntSafe (some (getTextStrip b.1))
                   | none => none),
                 author := (selOneIn li [selC "div" ["writer"],
                   selC "span" ["member"]]).map (fun sp => getTextStrip sp.1),
                 timestamp := (selOneIn li [selC "div" ["datetime"]]).map
                   (fun d => getTextStrip d.1),
                 thumbnail := extractThumbnail (some li.1)
                   (pstr "https://www.etoland.co.kr/") }

/-- Translation of `parse_etoland` (crawler/main.py lines 376-441). -/
def parse_etoland (soup : HForest) : List Post :=
  match (match selectOne soup [selId "" "fboardlist"] with
         | some x => some x
         | none => selectOne soup [selC "" ["board_list_wrap"]]) with
  | none => []
  | some board =>
    dedupePosts ((selInto board [selC "li" ["list"]]).filterMap etolandRow)

/-- `re.sub(r'^\[유머\]\s*', '', title).strip()` of `parse_inven`. -/
def invenStripTag (t : PyStr) : PyStr :=
  if pyStarts (pstr "[유머]") t then
    pyStrip ((t.drop 4).dropWhile Char.isWhitespace)
  else pyStrip t

/-- Loop body of `parse_inven` (crawler/main.py lines 448-506). -/
def invenRow (link : HNode × List HNode) : Option Post :=
  if (getTextStrip link.1).isEmpty || (getAttrD link.1 (pstr "href")).isEmpty ||
      (getTextStrip link.1).length < 5 then none
  else
    if (match selOneIn link [selC "span" ["category"]] with
        | some cat => pyContains (pstr "[기타]") (getTextRaw cat.1)
        | none => false) then none
    else
      if (match findParentTag link.2 (pstr "tr") with
          | some tr =>
            (match selOneIn tr [selC "td" ["user"]] with
             | some utd =>
               (match selOneIn utd [selC "span" ["layerNickName"]] with
                | some asp => pyContains (pstr "인벤운영팀") (getTextStrip asp.1)
                | none => false)
             | none => false)
          | none => false) then none
      else
        match (match findParentTag link.2 (pstr "tr") with
          | some tr =>
            (match selOneIn tr [selC "td" ["view"]] with
             | some vtd => toIntSafe (some (removeCommas (getTextStrip vtd.1)))
             | none => none)
          | none => none) with
        | none => none
        | some v =>
          if v < 3000 then none
          else
            some { site := pstr "inven",
                   title := invenStripTag (getTextStrip link.1),
                   url := absUrl (getAttrD link.1 (pstr "href"))
                     (pstr "https://www.inven.co.kr/"),
                   author := (findParentTag link.2 (pstr "tr")).bind (fun tr =>
                     (selOneIn tr [selC "td" ["user"]]).bind (fun utd =>
                       (selOneIn utd [selC "span" ["layerNickName"]]).map
                         (fun asp => getTextStrip asp.1))),
                   views := some v,
                   likes := (findParentTag link.2 (pstr "tr")).bind (fun tr =>
                     (selOneIn tr [selC "td" ["reco"]]).bind (fun rtd =>
                       toIntSafe (some (removeCommas (getTextStrip rtd.1))))),
                   comments := (findParentTag link.2 (pstr "tr")).bind (fun tr =>
                     (selOneIn tr [selC "" ["con-comment"]]).bind (fun csp =>
                       toIntSafe (some (pyStripChars ['[', ']']
                         (getTextStrip csp.1))))),
                   timestamp := none,
                   thumbnail := (findParentTag link.2 (pstr "tr")).bind (fun tr =>
                     extractThumbnail (some tr.1) (pstr "https://www.inven.co.kr/")) }

/-- Translation of `parse_inven` (crawler/main.py lines 443-508). -/
def parse_inven (soup : HForest) : List Post :=
  dedupePosts ((select soup
    [selSub "a" ["subject-link"] "href" "board/webzine/2097"]).filterMap invenRow)

/-- Loop body of `parse_dcinside` (crawler/main.py lines 515-537). -/
def dcinsideRow (article : HNode × List HNode) : Option Post :=
  match selOneIn article [selSub "a" [] "href" "gall.dcinside.com"] with
  | none => none
  | some link =>
    if (getTextStrip link.1).isEmpty || (getAttrD link.1 (pstr "href")).isEmpty ||
        (getTextStrip link.1).length < 5 then none
    else
      some { site := pstr "dcinside",
             title := getTextStrip link.1,
             url := absUrl (getAttrD link.1 (pstr "href"))
               (pstr "https://gall.dcinside.com/"),
             views := (selOneIn article [selC "" ["count"]]).bind
               (fun x => toIntSafe (some (getTextRaw x.1))),
             likes := (selOneIn article [selC "" ["recomm"]]).bind
               (fun x => toIntSafe (some (getTextRaw x.1))),
             comments := (selOneIn article [selC "" ["reply"]]).bind
               (fun x => toIntSafe (some (getTextRaw x.1))),
             author := (selOneIn article [selC "" ["writer"]]).map
               (fun x => getTextStrip x.1),
             timestamp := (selOneIn article [selC "time" []]).bind
               (fun t => getAttr t.1 (pstr "datetime")),
             thumbnail := extractThumbnail (some article.1)
               (pstr "https://gall.dcinside.com/") }

/-- Translation of `parse_dcinside` (crawler/main.py lines 510-539). -/
def parse_dcinside (soup : HForest) : List Post :=
  dedupePosts ((select soup [selC "" ["ub-content"]]).filterMap dcinsideRow)

/-- Loop body of `parse_clien` (crawler/main.py lines 546-568). -/
def clienRow (item : HNode × List HNode) : Option Post :=
  match selOneIn item [selC "a" ["list_subject"]] with
  | none => none
  | some link =>
    if (getTextStrip link.1).isEmpty || (getAttrD link.1 (pstr "href")).isEmpty ||
        (getTextStrip link.1).length < 5 then none
    else
      some { site := pstr "clien",
             title := getTextStrip link.1,
             url := absUrl (getAttrD link.1 (pstr "href"))
               (pstr "https://www.clien.net/"),
             views := (selOneIn item [selC "div" ["list_hit"],
               selC "span" ["hit"]]).bind
               (fun x => toIntSafe (some (getTextStrip x.1))),
             likes := (selOneIn item [selC "" ["list_symph", "view_symph"],
               selC "span" []]).bind
               (fun x => toIntSafe (some (getTextRaw x.1))),
             comments := (selOneIn item [selC "" ["rSymph05"]]).bind
               (fun x => toIntSafe (some (getTextRaw x.1))),
             author := (selOneIn item [selC "" ["nickname"], selC "span" []]).map
               (fun x => getTextStrip x.1),
             timestamp := none,
             thumbnail := extractThumbnail (some item.1)
               (pstr "https://www.clien.net/") }

/-- Translation of `parse_clien` (crawler/main.py lines 541-570). -/
def parse_clien (soup : HForest) : List Post :=
  dedupePosts ((select soup [selC "" ["list_item", "symph_row"]]).filterMap clienRow)

/-- Loop body of `parse_dogdrip` (crawler/main.py lines 577-599). -/
def dogdripRow (item : HNode × List HNode) : Option Post :=
  match selOneIn item [selSub "a" [] "href" "dogdrip.net"] with
  | none => none
  | some link =>
    if (getTextStrip link.1).isEmpty || (getAttrD link.1 (pstr "href")).isEmpty ||
        (getTextStrip link.1).length < 5 then none
    else
      some { site := pstr "dogdrip",
             title := getTextStrip link.1,
             url := absUrl (getAttrD link.1 (pstr "href"))
               (pstr "https://www.dogdrip.net/"),
             views := (selOneIn item [selC "" ["count"]]).bind
               (fun x => toIntSafe (some (getTextRaw x.1))),
             likes := (selOneIn item [selC "" ["vote"]]).bind
               (fun x => toIntSafe (some (getTextRaw x.1))),
             comments := (selOneIn item [selC "" ["reply"]]).bind
               (fun x => toIntSafe (some (getTextRaw x.1))),
             author := (selOneIn item [selC "" ["author"]]).map
               (fun x => getTextStrip x.1),
             timestamp := (selOneIn item [selC "time" []]).bind
               (fun t => getAttr t.1 (pstr "datetime")),
             thumbnail := extractThumbnail (some item.1)
               (pstr "https://www.dogdrip.net/") }

/-- Translation of `parse_dogdrip` (crawler/main.py lines 572-601). -/
def parse_dogdrip (soup : HForest) : List Post :=
  dedupePosts ((select soup [selC "" ["list_item"]]).filterMap dogdripRow)

/-- Loop body of `parse_theqoo` (crawler/main.py lines 608-630). -/
def theqooRow (item : HNode × List HNode) : Option Post :=
  match selOneIn item [selSub "a" [] "href" "theqoo.net"] with
  | none => none
  | some link =>
    if (getTextStrip link.1).isEmpty || (getAttrD link.1 (pstr "href")).isEmpty ||
        (getTextStrip link.1).length < 5 then none
    else
      some { site := pstr "theqoo",
             title := getTextStrip link.1,
             url := absUrl (getAttrD link.1 (pstr "href"))
               (pstr "https://theqoo.net/"),
             views := (selOneIn item [selC "" ["count"]]).bind
               (fun x => toIntSafe (some (getTextRaw x.1))),
             likes := (selOneIn item [selC "" ["vote"]]).bind
               (fun x => toIntSafe (some (getTextRaw x.1))),
             comments := (selOneIn item [selC "" ["reply"]]).bind
               (fun x => toIntSafe (some (getTextRaw x.1))),
             author := (selOneIn item [selC "" ["author"]]).map
               (fun x => getTextStrip x.1),
             timestamp := (selOneIn item [selC "time" []]).bind
               (fun t => getAttr t.1 (pstr "datetime")),
             thumbnail := extractThumbnail (some item.1)
               (pstr "https://theqoo.net/") }

/-- Translation of `parse_theqoo` (crawler/main.py lines 603-632). -/
def parse_theqoo (soup : HForest) : List Post :=
  dedupePosts ((select soup [selC "" ["list_item"]]).filterMap theqooRow)

/-- Loop body of `parse_mlbpark` (crawler/main.py lines 639-672). -/
def mlbparkRow (titleElem : HNode × List HNode) : Option Post :=
  if (getTextStrip titleElem.1).isEmpty ||
      (getAttrD titleElem.1 (pstr "href")).isEmpty ||
      (getTextStrip titleElem.1).length < 5 then none
  else
    some { site := pstr "mlbpark",
           title := getTextStrip titleElem.1,
           url := absUrl (getAttrD titleElem.1 (pstr "href"))
             (pstr "https://mlbpark.donga.com/"),
           views := (findParentTag titleElem.2 (pstr "tr")).bind (fun tr =>
             (selOneIn tr [selC "span" ["viewV"]]).bind (fun sp =>
               toIntSafe (some (removeCommas (getTextStrip sp.1))))),
           author := (findParentTag titleElem.2 (pstr "tr")).bind (fun tr =>
             (selOneIn tr [selC "span" ["nick"]]).map
               (fun sp => getTextStrip sp.1)),
           comments := (findParentTag titleElem.2 (pstr "tr")).bind (fun tr =>
             (selOneIn tr [selC "span" ["replycnt"]]).bind (fun sp =>
               toIntSafe (some (pyStripChars ['[', ']'] (getTextStrip sp.1))))),
           thumbnail := (findParentTag titleElem.2 (pstr "tr")).bind (fun tr =>
             extractThumbnail (some tr.1) (pstr "https://mlbpark.donga.com/")) }

/-- Translation of `parse_mlbpark` (crawler/main.py lines 634-674). -/
def parse_mlbpark (soup : HForest) : List Post :=
  dedupePosts ((select soup [selC "div" ["tit"], selC "a" ["txt"]]).filterMap
    mlbparkRow)

/-- `tag.get_text(" ", strip=True)`: stripped strings joined by spaces. -/
def getTextStripSep (n : HNode) : PyStr :=
  joinSep (pstr " ") (((nodeTexts n).map pyStrip).filter (fun a => a ≠ []))

/-- `re.search(r"조회수\s*:?\s*([\d,]+)", txt)`. -/
def dropOneColon (s : PyStr) : PyStr :=
  if pyStarts (pstr ":") s then s.drop 1 else s

def searchViews82 : PyStr → Option PyStr
  | [] => none
  | c :: rest =>
    if pyStarts (pstr "조회수") (c :: rest) &&
        !(((dropOneColon (((c :: rest).drop 3).dropWhile
            Char.isWhitespace)).dropWhile Char.isWhitespace).takeWhile
          (fun x => x.isDigit || x == ',')).isEmpty then
      some (((dropOneColon (((c :: rest).drop 3).dropWhile
            Char.isWhitespace)).dropWhile Char.isWhitespace).takeWhile
          (fun x => x.isDigit || x == ','))
    else searchViews82 rest

/-- `re.search(r"(\d+)\s*개의\s*댓글", txt)`. -/
def searchComments82 : PyStr → Option PyStr
  | [] => none
  | c :: rest =>
    if c.isDigit &&
        pyStarts (pstr "개의")
          (((c :: rest).dropWhile Char.isDigit).dropWhile Char.isWhitespace) &&
        pyStarts (pstr "댓글")
          (((((c :: rest).dropWhile Char.isDigit).dropWhile
            Char.isWhitespace).drop 2).dropWhile Char.isWhitespace) then
      some ((c :: rest).takeWhile Char.isDigit)
    else searchComments82 rest

/-- Loop body of `parse_82cook` (crawler/main.py lines 681-700). -/
def cook82Row (titleElem : HNode × List HNode) : Option Post :=
  if (getTextStrip titleElem.1).isEmpty ||
      (getAttrD titleElem.1 (pstr "href")).isEmpty ||
      (getTextStrip titleElem.1).length < 5 then none
  else
    some { site := pstr "82cook",
           title := getTextStrip titleElem.1,
           url := absUrl (getAttrD titleElem.1 (pstr "href"))
             (pstr "https://www.82cook.com/"),
           views := (match findParentTag titleElem.2 (pstr "tr") with
             | some par => some par
             | none => findParentTag titleElem.2 (pstr "li")).bind (fun par =>
               toIntSafe (searchViews82 (getTextStripSep par.1))),
           comments := (match findParentTag titleElem.2 (pstr "tr") with
             | some par => some par
             | none => findParentTag titleElem.2 (pstr "li")).bind (fun par =>
               toIntSafe (searchComments82 (getTextStripSep par.1))),
           thumbnail := (match findParentTag titleElem.2 (pstr "tr") with
             | some par => some par
             | none => findParentTag titleElem.2 (pstr "li")).bind (fun par =>
               extractThumbnail (some par.1) (pstr "https://www.82cook.com/")) }

/-- Translation of `parse_82cook` (crawler/main.py lines 676-702). -/
def parse_82cook (soup : HForest) : List Post :=
  dedupePosts ((select soup [selC "" ["title"], selC "a" []]).filterMap cook82Row)

/-- Loop body of `parse_damoang` (crawler/main.py lines 709-749). -/
def damoangRow (link : HNode × List HNode) : Option Post :=
  if (getTextStrip link.1).isEmpty || (getAttrD link.1 (pstr "href")).isEmpty ||
      (getTextStrip link.1).length < 5 then none
  else
    match findParentTagClass link.2 (pstr "div") (pstr "d-inline-flex") with
    | none => none
    | some par =>
      if (match selOneIn par [selC "div" ["rcmd-box"]] with
          | some box => pyContains (pstr "홍보") (getTextRaw box.1)
          | none => false) then none
      else
        if (selOneIn par [selEq "img" [] "alt" "공지"]).isSome then none
        else
          match (selOneIn par [selC "span" ["count-plus", "orangered"]]).bind
              (fun sp => toIntSafe (some (getTextStrip sp.1))) with
          | none => none
          | some cmts =>
            if cmts < 5 then none
            else
              some { site := pstr "damoang",
                     title := getTextStrip link.1,
                     url := absUrl (getAttrD link.1 (pstr "href"))
                       (pstr "https://damoang.net/"),
                     views := none,
                     likes := none,
                     comments := some cmts,
                     thumbnail := extractThumbnail (some par.1)
                       (pstr "https://damoang.net/") }

/-- Translation of `parse_damoang` (crawler/main.py lines 704-751). -/
def parse_damoang (soup : HForest) : List Post :=
  dedupePosts ((select soup
    [selC "a" ["da-link-block", "da-article-link"]]).filterMap damoangRow)

/-- Loop body of `parse_ddanzi` (crawler/main.py lines 849-884). -/
def ddanziRow (tr : HNode × List HNode) : Option Post :=
  if hasClass tr.1 (pstr "notice") then none
  else
    if (selInto tr [selC "td" []]).length < 5 then none
    else
      match selOneIn tr [selC "td" ["title"]] with
      | none => none
      | some titleTd =>
        match (match selOneIn titleTd [selSub "a" [] "href" "/free/"] with
               | some x => some x
               | none => selOneIn titleTd [selSub "a" [] "href" "mid=free"]) with
        | none => none
        | some link =>
          if (getTextStrip link.1).isEmpty ||
              (getTextStrip link.1).length < 5 then none
          else
            some { site := pstr "ddanzi",
                   title := getTextStrip link.1,
                   url := absUrl (getAttrD link.1 (pstr "href"))
                     (pstr "https://www.ddanzi.com/"),
                   likes := (selOneIn tr [selC "td" ["voteNum"]]).bind
                     (fun td => toIntSafe (some (getTextStrip td.1))),
                   views := (match selOneIn tr [selC "td" ["readNum"]] with
                     | some x => some x
                     | none => selOneIn tr [selC "td" ["hit"]]).bind
                     (fun td => toIntSafe (some (getTextStrip td.1))),
                   author := (selOneIn tr [selC "td" ["author"]]).map
                     (fun td => getTextStrip td.1),
                   thumbnail := extractThumbnail (some tr.1)
                     (pstr "https://www.ddanzi.com/") }

/-- Translation of `parse_ddanzi` (crawler/main.py lines 839-886). -/
def parse_ddanzi (soup : HForest) : List Post :=
  match selectOne soup [selC "table" ["fz_change"]] with
  | none => []
  | some table =>
    dedupePosts ((selInto table [selC "tr" []]).filterMap ddanziRow)

/-- Tail of `parse_bobaedream`'s loop after the likes guard (crawler/main.py
lines 941-967). -/
def bobaedreamFinish (tr : HNode × List HNode) (link : HNode × List HNode)
    (likes : Option Nat) : Option Post :=
  some { site := pstr "bobaedream",
         title := getTextStrip link.1,
         url := absUrl (getAttrD link.1 (pstr "href"))
           (pstr "https://www.bobaedream.co.kr/"),
         likes := likes,
         comments := (selOneIn tr [selC "span" ["Comment"],
           selC "strong" ["totreply"]]).bind
           (fun sp => toIntSafe (some (getTextStrip sp.1))),
         views := (selOneIn tr [selC "td" ["count"]]).bind
           (fun td => toIntSafe (some (getTextStrip td.1))),
         author := (selOneIn tr [selC "span" ["author"]]).map
           (fun sp => getTextStrip sp.1),
         timestamp := (selOneIn tr [selC "td" ["date"]]).map
           (fun td => getTextStrip td.1),
         thumbnail := extractThumbnail (some tr.1)
           (pstr "https://www.bobaedream.co.kr/") }

/-- Loop body of `parse_bobaedream` (crawler/main.py lines 916-967): a
present recommendation cell below 3 drops the row; an absent cell leaves
`likes` unset. -/
def bobaedreamRow (tr : HNode × List HNode) : Option Post :=
  match selOneIn tr [selC "a" ["bsubject"]] with
  | none => none
  | some link =>
    if (getTextStrip link.1).isEmpty || (getAttrD link.1 (pstr "href")).isEmpty ||
        (getTextStrip link.1).length < 5 then none
    else
      match selOneIn tr [selC "td" ["recomm"]] with
      | some rc =>
        match toIntSafe (some (getTextStrip rc.1)) with
        | none => none
        | some lv =>
          if lv < 3 then none
          else bobaedreamFinish tr link (some lv)
      | none => bobaedreamFinish tr link none

/-- Translation of `parse_bobaedream` (crawler/main.py lines 911-969). -/
def parse_bobaedream (soup : HForest) : List Post :=
  dedupePosts ((select soup
    [selEq "tr" [] "itemtype" "http://schema.org/Article"]).filterMap
      bobaedreamRow)

/-- Loop body of `parse_ppomppu` (crawler/main.py lines 1004-1044). -/
def ppomppuRow (baseUrl : PyStr) (link : HNode × List HNode) : Option Post :=
  if (getTextStrip link.1).isEmpty || (getAttrD link.1 (pstr "href")).isEmpty ||
      (getTextStrip link.1).length < 5 then none
  else
    if !pyContains (pstr "view.php?id=freeboard")
        (getAttrD link.1 (pstr "href")) then none
    else
      some { site := pstr "ppomppu",
             title := getTextStrip link.1,
             url := ppomppuRewrite (absUrl (getAttrD link.1 (pstr "href")) baseUrl),
             views := (findParentTag link.2 (pstr "tr")).bind (fun tr =>
               (selOneIn tr [selC "td" ["baseList-views"]]).bind (fun td =>
                 toIntSafe (some (getTextStrip td.1)))),
             author := (findParentTag link.2 (pstr "tr")).bind (fun tr =>
               (selOneIn tr [selC "td" ["baseList-name"], selC "span" []]).map
                 (fun sp => getTextStrip sp.1)),
             timestamp := (findParentTag link.2 (pstr "tr")).bind (fun tr =>
               (selOneIn tr [selC "time" ["baseList-time"]]).map
                 (fun t => getTextStrip t.1)),
             thumbnail := (findParentTag link.2 (pstr "tr")).bind (fun tr =>
               extractThumbnail (some tr.1) baseUrl) }

/-- Translation of `parse_ppomppu` (crawler/main.py lines 999-1046). -/
def parse_ppomppu (baseUrl : PyStr) (soup : HForest) : List Post :=
  dedupePosts ((select soup [selC "a" ["baseList-title"]]).filterMap
    (ppomppuRow baseUrl))

/-- `re.search(r'\[(\d+)\]\s*$', s)`: the digits of the leftmost `[digits]`
group followed only by whitespace up to the end. -/
def searchTrailingBracketNum : PyStr → Option PyStr
  | [] => none
  | c :: rest =>
    if c == '[' &&
        (match rest with | d :: _ => d.isDigit | [] => false) &&
        (match rest.dropWhile Char.isDigit with
         | x :: xs => x == ']' && xs.all Char.isWhitespace
         | [] => false) then
      some (rest.takeWhile Char.isDigit)
    else searchTrailingBracketNum rest

/-- Loop body of `parse_slrclub` (crawler/main.py lines 1279-1322). -/
def slrclubRow (tr : HNode × List HNode) : Option Post :=
  if (selOneIn tr [selC "td" ["list_notice"]]).isSome then none
  else
    if !(selOneIn tr [selC "td" ["list_num"]]).isSome then none
    else
      match selOneIn tr [selC "td" ["sbj"]] with
      | none => none
      | some sbjTd =>
        match selOneIn sbjTd [selSub "a" [] "href" "id=free"] with
        | none => none
        | some link =>
          if (getTextStrip link.1).isEmpty ||
              (getAttrD link.1 (pstr "href")).isEmpty ||
              (getTextStrip link.1).length < 3 then none
          else
            some { site := pstr "slrclub",
                   title := getTextStrip link.1,
                   url := absUrl (getAttrD link.1 (pstr "href"))
                     (pstr "https://www.slrclub.com/"),
                   comments := (searchTrailingBracketNum
                     (getTextStrip sbjTd.1)).map natOfDigits,
                   author := (selOneIn tr [selC "td" ["list_name"]]).map
                     (fun td => getTextStrip td.1),
                   timestamp := (selOneIn tr [selC "td" ["list_date"]]).map
                     (fun td => getTextStrip td.1),
                   likes := (selOneIn tr [selC "td" ["list_vote"]]).bind
                     (fun td => toIntSafe (some (getTextStrip td.1))),
                   views := (selOneIn tr [selC "td" ["list_click"]]).bind
                     (fun td => toIntSafe (some (getTextStrip td.1))),
                   thumbnail := extractThumbnail (some tr.1)
                     (pstr "https://www.slrclub.com/") }

/-- Translation of `parse_slrclub` (crawler/main.py lines 1271-1324). -/
def parse_slrclub (soup : HForest) : List Post :=
  match selectOne soup [selC "table" []] with
  | none => []
  | some table =>
    dedupePosts ((selInto table [selC "tr" []]).filterMap slrclubRow)

/-! ## Per-adapter record invariants -/

lemma mem_parse {f : HNode × List HNode → Option Post}
    {rows : List (HNode × List HNode)} {p : Post}
    (h : p ∈ dedupePosts (rows.filterMap f)) : ∃ r ∈ rows, f r = some p := by
  have hmem : p ∈ rows.filterMap f := (dedupeAux_sublist [] (rows.filterMap f)).subset h
  rcases List.mem_filterMap.mp hmem with ⟨r, hr, hfr⟩
  exact ⟨r, hr, hfr⟩

lemma parse_fmkorea_inv (soup : HForest) (p : Post)
    (hp : p ∈ parse_fmkorea soup) : 3 ≤ p.title.length ∧ urlInvariant p.url := by
  rw [parse_fmkorea] at hp
  split at hp
  · simp at hp
  · rcases mem_parse hp with ⟨r, _, hf⟩
    rw [fmkoreaRow] at hf
    split at hf
    · exact absurd hf (by simp)
    · split at hf
      · exact absurd hf (by simp)
      · rename_i link _
        split at hf
        · exact absurd hf (by simp)
        · rename_i hguard
          split at hf
          · exact absurd hf (by simp)
          · injection hf with hf
            subst hf
            simp only [Bool.or_eq_true, not_or, decide_eq_true_eq] at hguard
            exact ⟨by show 3 ≤ (getTextStrip link.1).length; omega,
              absUrl_inv _ _ (by decide)⟩

lemma parse_humoruniv_inv (soup : HForest) (p : Post)
    (hp : p ∈ parse_humoruniv soup) : 3 ≤ p.title.length ∧ urlInvariant p.url := by
  rcases mem_parse hp with ⟨r, _, hf⟩
  rw [humorunivRow] at hf
  split at hf
  · exact absurd hf (by simp)
  · rename_i link _
    split at hf
    · exact absurd hf (by simp)
    · split at hf
      · exact absurd hf (by simp)
      · rename_i hguard2
        injection hf with hf
        subst hf
        exact ⟨by
          show 3 ≤ (pyStrip (humorunivCut (getTextStrip link.1))).length
          omega, absUrl_inv _ _ (by decide)⟩

lemma parse_ruliweb_inv (soup : HForest) (p : Post)
    (hp : p ∈ parse_ruliweb soup) : 5 ≤ p.title.length ∧ urlInvariant p.url := by
  rcases mem_parse hp with ⟨r, _, hf⟩
  rw [ruliwebRow] at hf
  split at hf
  · exact absurd hf (by simp)
  · split at hf
    · exact absurd hf (by simp)
    · rename_i link _
      split at hf
      · exact absurd hf (by simp)
      · rename_i hguard
        injection hf with hf
        subst hf
        simp only [Bool.or_eq_true, not_or, decide_eq_true_eq] at hguard
        exact ⟨by show 5 ≤ (getTextStrip link.1).length; omega,
          absUrl_inv _ _ (by decide)⟩

lemma parse_etoland_inv (soup : HForest) (p : Post)
    (hp : p ∈ parse_etoland soup) : 5 ≤ p.title.length ∧ urlInvariant p.url := by
  rw [parse_etoland] at hp
  split at hp
  · simp at hp
  · rcases mem_parse hp with ⟨r, _, hf⟩
    rw [etolandRow] at hf
    split at hf
    · exact absurd hf (by simp)
    · split at hf
      · exact absurd hf (by simp)
      · rename_i link _
        split at hf
        · exact absurd hf (by simp)
        · split at hf
          · exact absurd hf (by simp)
          · rename_i hguard
            injection hf with hf
            subst hf
            simp only [Bool.or_eq_true, not_or, decide_eq_true_eq] at hguard
            exact ⟨by
              show 5 ≤ (pyStrip ((getTextStrip link.1).dropWhile
                Char.isDigit)).length
              omega, absUrl_inv _ _ (by decide)⟩

lemma parse_inven_inv (soup : HForest) (p : Post) (hp : p ∈ parse_inven soup) :
    (∃ t₀ : PyStr, 5 ≤ t₀.length ∧ p.title = invenStripTag t₀) ∧
      urlInvariant p.url := by
  rcases mem_parse hp with ⟨r, _, hf⟩
  rw [invenRow] at hf
  split at hf
  · exact absurd hf (by simp)
  · rename_i hguard
    split at hf
    · exact absurd hf (by simp)
    · split at hf
      · exact absurd hf (by simp)
      · split at hf
        · exact absurd hf (by simp)
        · rename_i v _
          split at hf
          · exact absurd hf (by simp)
          · injection hf with hf
            subst hf
            simp only [Bool.or_eq_true, not_or, decide_eq_true_eq] at hguard
            exact ⟨⟨getTextStrip r.1, by omega, rfl⟩, absUrl_inv _ _ (by decide)⟩

lemma parse_dcinside_inv (soup : HForest) (p : Post)
    (hp : p ∈ parse_dcinside soup) : 5 ≤ p.title.length ∧ urlInvariant p.url := by
  rcases mem_parse hp with ⟨r, _, hf⟩
  rw [dcinsideRow] at hf
  split at hf
  · exact absurd hf (by simp)
  · rename_i link _
    split at hf
    · exact absurd hf (by simp)
    · rename_i hguard
      injection hf with hf
      subst hf
      simp only [Bool.or_eq_true, not_or, decide_eq_true_eq] at hguard
      exact ⟨by show 5 ≤ (getTextStrip link.1).length; omega,
        absUrl_inv _ _ (by decide)⟩

lemma parse_clien_inv (soup : HForest) (p : Post)
    (hp : p ∈ parse_clien soup) : 5 ≤ p.title.length ∧ urlInvariant p.url := by
  rcases mem_parse hp with ⟨r, _, hf⟩
  rw [clienRow] at hf
  split at hf
  · exact absurd hf (by simp)
  · rename_i link _
    split at hf
    · exact absurd hf (by simp)
    · rename_i hguard
      injection hf with hf
      subst hf
      simp only [Bool.or_eq_true, not_or, decide_eq_true_eq] at hguard
      exact ⟨by show 5 ≤ (getTextStrip link.1).length; omega,
        absUrl_inv _ _ (by decide)⟩

lemma parse_dogdrip_inv (soup : HForest) (p : Post)
    (hp : p ∈ parse_dogdrip soup) : 5 ≤ p.title.length ∧ urlInvariant p.url := by
  rcases mem_parse hp with ⟨r, _, hf⟩
  rw [dogdripRow] at hf
  split at hf
  · exact absurd hf (by simp)
  · rename_i link _
    split at hf
    · exact absurd hf (by simp)
    · rename_i hguard
      injection hf with hf
      subst hf
      simp only [Bool.or_eq_true, not_or, decide_eq_true_eq] at hguard
      exact ⟨by show 5 ≤ (getTextStrip link.1).length; omega,
        absUrl_inv _ _ (by decide)⟩

lemma parse_theqoo_inv (soup : HForest) (p : Post)
    (hp : p ∈ parse_theqoo soup) : 5 ≤ p.title.length ∧ urlInvariant p.url := by
  rcases mem_parse hp with ⟨r, _, hf⟩
  rw [theqooRow] at hf
  split at hf
  · exact absurd hf (by simp)
  · rename_i link _
    split at hf
    · exact absurd hf (by simp)
    · rename_i hguard
      injection hf with hf
      subst hf
      simp only [Bool.or_eq_true, not_or, decide_eq_true_eq] at hguard
      exact ⟨by show 5 ≤ (getTextStrip link.1).length; omega,
        absUrl_inv _ _ (by decide)⟩

lemma parse_mlbpark_inv (soup : HForest) (p : Post)
    (hp : p ∈ parse_mlbpark soup) : 5 ≤ p.title.length ∧ urlInvariant p.url := by
  rcases mem_parse hp with ⟨r, _, hf⟩
  rw [mlbparkRow] at hf
  split at hf
  · exact absurd hf (by simp)
  · rename_i hguard
    injection hf with hf
    subst hf
    simp only [Bool.or_eq_true, not_or, decide_eq_true_eq] at hguard
    exact ⟨by show 5 ≤ (getTextStrip r.1).length; omega,
      absUrl_inv _ _ (by decide)⟩

lemma parse_82cook_inv (soup : HForest) (p : Post)
    (hp : p ∈ parse_82cook soup) : 5 ≤ p.title.length ∧ urlInvariant p.url := by
  rcases mem_parse hp with ⟨r, _, hf⟩
  rw [cook82Row] at hf
  split at hf
  · exact absurd hf (by simp)
  · rename_i hguard
    injection hf with hf
    subst hf
    simp only [Bool.or_eq_true, not_or, decide_eq_true_eq] at hguard
    exact ⟨by show 5 ≤ (getTextStrip r.1).length; omega,
      absUrl_inv _ _ (by decide)⟩

lemma parse_damoang_inv (soup : HForest) (p : Post)
    (hp : p ∈ parse_damoang soup) : 5 ≤ p.title.length ∧ urlInvariant p.url := by
  rcases mem_parse hp with ⟨r, _, hf⟩
  rw [damoangRow] at hf
  split at hf
  · exact absurd hf (by simp)
  · rename_i hguard
    split at hf
    · exact absurd hf (by simp)
    · split at hf
      · exact absurd hf (by simp)
      · split at hf
        · exact absurd hf (by simp)
        · split at hf
          · exact absurd hf (by simp)
          · rename_i cmts _
            split at hf
            · exact absurd hf (by simp)
            · injection hf with hf
              subst hf
              simp only [Bool.or_eq_true, not_or, decide_eq_true_eq] at hguard
              exact ⟨by show 5 ≤ (getTextStrip r.1).length; omega,
                absUrl_inv _ _ (by decide)⟩

lemma parse_ddanzi_inv (soup : HForest) (p : Post)
    (hp : p ∈ parse_ddanzi soup) : 5 ≤ p.title.length ∧ urlInvariant p.url := by
  rw [parse_ddanzi] at hp
  split at hp
  · simp at hp
  · rcases mem_parse hp with ⟨r, _, hf⟩
    rw [ddanziRow] at hf
    split at hf
    · exact absurd hf (by simp)
    · split at hf
      · exact absurd hf (by simp)
      · split at hf
        · exact absurd hf (by simp)
        · split at hf
          · exact absurd hf (by simp)
          · rename_i link _
            split at hf
            · exact absurd hf (by simp)
            · rename_i hguard
              injection hf with hf
              subst hf
              simp only [Bool.or_eq_true, not_or, decide_eq_true_eq] at hguard
              exact ⟨by show 5 ≤ (getTextStrip link.1).length; omega,
                absUrl_inv _ _ (by decide)⟩

lemma parse_bobaedream_inv (soup : HForest) (p : Post)
    (hp : p ∈ parse_bobaedream soup) : 5 ≤ p.title.length ∧ urlInvariant p.url := by
  rcases mem_parse hp with ⟨r, _, hf⟩
  rw [bobaedreamRow] at hf
  split at hf
  · exact absurd hf (by simp)
  · rename_i link _
    split at hf
    · exact absurd hf (by simp)
    · rename_i hguard
      simp only [Bool.or_eq_true, not_or, decide_eq_true_eq] at hguard
      have hfin : ∀ lk : Option Nat, bobaedreamFinish r link lk = some p →
          5 ≤ p.title.length ∧ urlInvariant p.url := by
        intro lk hEq
        rw [bobaedreamFinish] at hEq
        injection hEq with hEq
        subst hEq
        exact ⟨by show 5 ≤ (getTextStrip link.1).length; omega,
          absUrl_inv _ _ (by decide)⟩
      split at hf
      · split at hf
        · exact absurd hf (by simp)
        · split at hf
          · exact absurd hf (by simp)
          · exact hfin _ hf
      · exact hfin _ hf

lemma parse_ppomppu_inv (base : PyStr) (soup : HForest) (p : Post)
    (hb : httpBase base = true) (hp : p ∈ parse_ppomppu base soup) :
    5 ≤ p.title.length ∧ urlInvariant p.url := by
  rcases mem_parse hp with ⟨r, _, hf⟩
  rw [ppomppuRow] at hf
  split at hf
  · exact absurd hf (by simp)
  · rename_i hguard
    split at hf
    · exact absurd hf (by simp)
    · injection hf with hf
      subst hf
      simp only [Bool.or_eq_true, not_or, decide_eq_true_eq] at hguard
      exact ⟨by show 5 ≤ (getTextStrip r.1).length; omega,
        ppomppuRewrite_inv (absUrl_inv _ _ hb)⟩

lemma parse_slrclub_inv (soup : HForest) (p : Post)
    (hp : p ∈ parse_slrclub soup) : 3 ≤ p.title.length ∧ urlInvariant p.url := by
  rw [parse_slrclub] at hp
  split at hp
  · simp at hp
  · rcases mem_parse hp with ⟨r, _, hf⟩
    rw [slrclubRow] at hf
    split at hf
    · exact absurd hf (by simp)
    · split at hf
      · exact absurd hf (by simp)
      · split at hf
        · exact absurd hf (by simp)
        · split at hf
          · exact absurd hf (by simp)
          · rename_i link _
            split at hf
            · exact absurd hf (by simp)
            · rename_i hguard
              injection hf with hf
              subst hf
              simp only [Bool.or_eq_true, not_or, decide_eq_true_eq] at hguard
              exact ⟨by show 3 ≤ (getTextStrip link.1).length; omega,
                absUrl_inv _ _ (by decide)⟩

/-- C2: every post built by any of the sixteen site parsers has a non-empty
URL that either starts with `http` or carries an explicit URL scheme, and a
title that passed the parser's minimum-length check before construction
(3 characters for fmkorea, humoruniv and slrclub, 5 for the rest). For inven
the checked string is the raw link text before the `[유머]` tag strip, so the
stored title is `invenStripTag` of a string of length at least 5; ppomppu's
guarantee holds for any `http`-prefixed base URL, which is how the crawler
invokes it. -/
theorem parsers_title_url_invariant :
    (∀ soup p, p ∈ parse_fmkorea soup → 3 ≤ p.title.length ∧ urlInvariant p.url) ∧
    (∀ soup p, p ∈ parse_humoruniv soup → 3 ≤ p.title.length ∧ urlInvariant p.url) ∧
    (∀ soup p, p ∈ parse_ruliweb soup → 5 ≤ p.title.length ∧ urlInvariant p.url) ∧
    (∀ soup p, p ∈ parse_etoland soup → 5 ≤ p.title.length ∧ urlInvariant p.url) ∧
    (∀ soup p, p ∈ parse_inven soup →
      (∃ t₀ : PyStr, 5 ≤ t₀.length ∧ p.title = invenStripTag t₀) ∧
        urlInvariant p.url) ∧
    (∀ soup p, p ∈ parse_dcinside soup → 5 ≤ p.title.length ∧ urlInvariant p.url) ∧
    (∀ soup p, p ∈ parse_clien soup → 5 ≤ p.title.length ∧ urlInvariant p.url) ∧
    (∀ soup p, p ∈ parse_dogdrip soup → 5 ≤ p.title.length ∧ urlInvariant p.url) ∧
    (∀ soup p, p ∈ parse_theqoo soup → 5 ≤ p.title.length ∧ urlInvariant p.url) ∧
    (∀ soup p, p ∈ parse_mlbpark soup → 5 ≤ p.title.length ∧ urlInvariant p.url) ∧
    (∀ soup p, p ∈ parse_82cook soup → 5 ≤ p.title.length ∧ urlInvariant p.url) ∧
    (∀ soup p, p ∈ parse_damoang soup → 5 ≤ p.title.length ∧ urlInvariant p.url) ∧
    (∀ soup p, p ∈ parse_ddanzi soup → 5 ≤ p.title.length ∧ urlInvariant p.url) ∧
    (∀ soup p, p ∈ parse_bobaedream soup →
      5 ≤ p.title.length ∧ urlInvariant p.url) ∧
    (∀ base soup p, httpBase base = true → p ∈ parse_ppomppu base soup →
      5 ≤ p.title.length ∧ urlInvariant p.url) ∧
    (∀ soup p, p ∈ parse_slrclub soup → 3 ≤ p.title.length ∧ urlInvariant p.url) :=
  ⟨fun s p hp => parse_fmkorea_inv s p hp,
   fun s p hp => parse_humoruniv_inv s p hp,
   fun s p hp => parse_ruliweb_inv s p hp,
   fun s p hp => parse_etoland_inv s p hp,
   fun s p hp => parse_inven_inv s p hp,
   fun s p hp => parse_dcinside_inv s p hp,
   fun s p hp => parse_clien_inv s p hp,
   fun s p hp => parse_dogdrip_inv s p hp,
   fun s p hp => parse_theqoo_inv s p hp,
   fun s p hp => parse_mlbpark_inv s p hp,
   fun s p hp => parse_82cook_inv s p hp,
   fun s p hp => parse_damoang_inv s p hp,
   fun s p hp => parse_ddanzi_inv s p hp,
   fun s p hp => parse_bobaedream_inv s p hp,
   fun b s p hb hp => parse_ppomppu_inv b s p hb hp,
   fun s p hp => parse_slrclub_inv s p hp⟩

/-- Instantiation of the parser invariant on a concrete ppomppu listing with
one qualifying link, discharging the `http`-base hypothesis. -/
theorem parsers_title_url_invariant_witness :
    httpBase (pstr "https://www.ppomppu.co.kr/zboard/zboard.php?id=freeboard") =
      true ∧
    ∃ p, p ∈ parse_ppomppu
        (pstr "https://www.ppomppu.co.kr/zboard/zboard.php?id=freeboard")
        (.cons (.elem (pstr "a")
          [(pstr "class", pstr "baseList-title"),
           (pstr "href", pstr "view.php?id=freeboard&no=12345")]
          (.cons (.text (pstr "hello ppomppu")) .nil)) .nil) ∧
      5 ≤ p.title.length ∧ urlInvariant p.url := by
  refine ⟨by decide, ?_⟩
  obtain ⟨_, _, _, _, _, _, _, _, _, _, _, _, _, _, hpp, _⟩ :=
    parsers_title_url_invariant
  have hlen : (parse_ppomppu
      (pstr "https://www.ppomppu.co.kr/zboard/zboard.php?id=freeboard")
      (.cons (.elem (pstr "a")
        [(pstr "class", pstr "baseList-title"),
         (pstr "href", pstr "view.php?id=freeboard&no=12345")]
        (.cons (.text (pstr "hello ppomppu")) .nil)) .nil)).length = 1 := by rfl
  cases h : parse_ppomppu
      (pstr "https://www.ppomppu.co.kr/zboard/zboard.php?id=freeboard")
      (.cons (.elem (pstr "a")
        [(pstr "class", pstr "baseList-title"),
         (pstr "href", pstr "view.php?id=freeboard&no=12345")]
        (.cons (.text (pstr "hello ppomppu")) .nil)) .nil) with
  | nil => rw [h] at hlen; exact absurd hlen (by decide)
  | cons q l =>
    have hq : q ∈ parse_ppomppu
        (pstr "https://www.ppomppu.co.kr/zboard/zboard.php?id=freeboard")
        (.cons (.elem (pstr "a")
          [(pstr "class", pstr "baseList-title"),
           (pstr "href", pstr "view.php?id=freeboard&no=12345")]
          (.cons (.text (pstr "hello ppomppu")) .nil)) .nil) := by
      rw [h]; exact List.mem_cons_self q l
    exact ⟨q, List.mem_cons_self q l, hpp _ _ q (by decide) hq⟩

/-- Counterexample to claim C2 as stated: on an inven listing whose
qualifying link has text `[유머] ab` (7 characters, so it passes the
5-character check) and a `mailto:` href, the parser emits a post whose stored
title `ab` has length 2 and whose URL keeps the `mailto:` scheme — `urljoin`
returns non-relative-scheme URLs unchanged, so the URL does not start with
`http`. -/
theorem inven_post_below_minimum :
    (parse_inven
      (.cons (.elem (pstr "tr") []
        (.cons (.elem (pstr "td") [(pstr "class", pstr "view")]
          (.cons (.text (pstr "5000")) .nil))
        (.cons (.elem (pstr "td") []
          (.cons (.elem (pstr "a")
            [(pstr "class", pstr "subject-link"),
             (pstr "href", pstr "mailto:board/webzine/2097")]
            (.cons (.text (pstr "[유머] ab")) .nil)) .nil)) .nil))) .nil)).map
        (fun p => (p.title, p.url)) =
      [(pstr "ab", pstr "mailto:board/webzine/2097")] ∧
    (pstr "ab").length < 5 ∧
    pyStarts (pstr "http") (pstr "mailto:board/webzine/2097") = false := by
  refine ⟨by decide, by decide, by decide⟩

end Buzzit
